import Mathlib

/-!
Shallow embedding of the HTTPRoute translation layer of
`pkg/providers/gateway/translation/gateway_httproute.go` from the
apisix-ingress-controller repository, together with theorems checking the
natural-language specification against it.

Go string-typed enums (path/header/query match types, filter types, backend
kinds) are modelled as `String`; pointer-typed optional fields as `Option`;
Go maps as association lists with insert-or-replace semantics; fallible Go
functions returning `(T, error)` as `Except String T`.  The external
Service→Upstream resolver (`KubeTranslator.TranslateService`) is a parameter
of the translation function.
-/

namespace ApisixGatewayTranslation

/-! ### Output data model (pkg/types/apisix/v1) -/

/-- Element of a route `vars` condition; the translator only ever uses the
string form of `apisixv1.StringOrSlice`. -/
structure StringOrSlice where
  strVal : String
deriving Repr, DecidableEq

/-- One weighted upstream entry of a `traffic-split` plugin rule. -/
structure TrafficSplitConfigRuleWeightedUpstream where
  upstreamID : String
  weight : Int
deriving Repr, DecidableEq

/-- One rule of a `traffic-split` plugin configuration. -/
structure TrafficSplitConfigRule where
  weightedUpstreams : List TrafficSplitConfigRuleWeightedUpstream
deriving Repr, DecidableEq

/-- Configuration of the `traffic-split` plugin. -/
structure TrafficSplitConfig where
  rules : List TrafficSplitConfigRule
deriving Repr, DecidableEq

/-- Go `map[string]string`-like header mapping, as an association list; the
Go map's key-uniqueness is maintained by `headersInsert`. -/
abbrev HeadersMap := List (String × String)

/-- Configuration of the `proxy-rewrite` plugin as used here (only the
`headers` field is populated). -/
structure RewriteConfig where
  headers : HeadersMap
deriving Repr, DecidableEq

/-- Configuration of the `redirect` plugin. -/
structure RedirectConfig where
  retCode : Int
  uri : String
deriving Repr, DecidableEq

/-- Closed set of plugin configurations the translator produces. -/
inductive PluginConf where
  | rewrite (c : RewriteConfig)
  | redirect (c : RedirectConfig)
  | trafficSplit (c : TrafficSplitConfig)
deriving Repr, DecidableEq

/-- Go `apisixv1.Plugins` is `map[string]interface{}`; modelled as an
association list from plugin name to its configuration. -/
abbrev Plugins := List (String × PluginConf)

/-- Insert-or-replace into an association list, modelling Go map assignment
`m[k] = v`: an existing binding for the key is overwritten in place, a new
key is appended. -/
def assocInsert {β : Type} : List (String × β) → String → β → List (String × β)
  | [], k, v => [(k, v)]
  | p :: t, k, v => if p.1 = k then (k, v) :: t else p :: assocInsert t k v

/-- Lookup in an association list, modelling Go map read `m[k]`. -/
def assocFind {β : Type} : List (String × β) → String → Option β
  | [], _ => none
  | p :: t, k => if p.1 = k then some p.2 else assocFind t k

/-- Header-map insertion (Go `headers[name] = value`). -/
def headersInsert (m : HeadersMap) (k v : String) : HeadersMap :=
  assocInsert m k v

/-- Plugin-map insertion (Go `plugins[name] = conf`). -/
def pluginsInsert (m : Plugins) (k : String) (v : PluginConf) : Plugins :=
  assocInsert m k v

/-- The gateway route object; only the fields this translator reads or
writes are modelled. -/
structure Route where
  id : String
  uri : String
  hosts : List String
  vars : List (List StringOrSlice)
  methods : List String
  plugins : Plugins
  upstreamId : String
deriving Repr, DecidableEq

/-- The gateway upstream object; only the fields this translator reads or
writes are modelled. -/
structure Upstream where
  id : String
  name : String
  labels : HeadersMap
deriving Repr, DecidableEq

/-- Modelled from the spec: `apisixv1.NewDefaultRoute` (declared outside
`src/`) yields a route with no URI, vars, hosts, methods, plugins or
upstream binding. -/
def NewDefaultRoute : Route :=
  { id := "", uri := "", hosts := [], vars := [], methods := [],
    plugins := [], upstreamId := "" }

/-- Modelled from the spec: `utils.TruncateString` (declared outside `src/`)
truncates a label value to at most `n` characters. -/
def TruncateString (s : String) (n : Nat) : String :=
  String.mk (s.data.take n)

/-- Modelled from the spec: `id.GenID` (declared outside `src/`) is a
deterministic, collision-resistant hash of the composite-key string; only
determinism and stability matter here, so it is modelled as a tagged copy
of its input. -/
def GenID (raw : String) : String :=
  "id-" ++ raw

/-- Modelled from the spec: `apisixv1.ComposeUpstreamName` (declared outside
`src/`) builds the canonical upstream composite key from namespace, name,
subset, port and resolve granularity. -/
def ComposeUpstreamName (ns name subset : String) (port : Int)
    (granularity : String) : String :=
  ns ++ "_" ++ name ++ "_" ++ subset ++ "_" ++ toString port ++ "_" ++ granularity

/-- Modelled from the spec: `apisixv1.ComposeRouteName` (declared outside
`src/`) builds the canonical route composite key from namespace, name and
the rule/match index pair. -/
def ComposeRouteName (ns name rest : String) : String :=
  ns ++ "_" ++ name ++ "_" ++ rest

/-- Modelled from the spec: `types.ResolveGranularity.Endpoint` (declared
outside `src/`), the per-endpoint resolution granularity tag. -/
def ResolveGranularityEndpoint : String := "endpoint"

/-- The translation output aggregate (`translation.TranslateContext`). -/
structure TranslateContext where
  routes : List Route
  upstreams : List Upstream
deriving Repr, DecidableEq

/-- Modelled from the spec: `translation.DefaultEmptyTranslateContext`
(declared outside `src/`) is the fresh empty context. -/
def DefaultEmptyTranslateContext : TranslateContext :=
  { routes := [], upstreams := [] }

/-- Modelled from the spec: `TranslateContext.AddRoute` (declared outside
`src/`) adds or replaces a route by identifier. -/
def TranslateContext.addRoute (ctx : TranslateContext) (r : Route) :
    TranslateContext :=
  if ctx.routes.any (fun x => x.id == r.id) then
    { ctx with routes := ctx.routes.map (fun x => if x.id == r.id then r else x) }
  else
    { ctx with routes := ctx.routes ++ [r] }

/-- Modelled from the spec: `TranslateContext.AddUpstream` (declared outside
`src/`) adds or replaces an upstream by identifier. -/
def TranslateContext.addUpstream (ctx : TranslateContext) (u : Upstream) :
    TranslateContext :=
  if ctx.upstreams.any (fun x => x.id == u.id) then
    { ctx with upstreams := ctx.upstreams.map (fun x => if x.id == u.id then u else x) }
  else
    { ctx with upstreams := ctx.upstreams ++ [u] }

/-! ### Input data model (sigs.k8s.io/gateway-api v1alpha2)

Match types, filter types and backend kinds are Go string types; their
recognized values are the string literals used below ("Exact",
"PathPrefix", "RegularExpression", "RequestHeaderModifier",
"RequestRedirect", "RequestMirror", "service"). -/

/-- HTTPPathMatch: the Go code dereferences both pointer fields, so they are
modelled as plain values. -/
structure HTTPPathMatch where
  type : String
  value : String
deriving Repr, DecidableEq

/-- HTTPHeaderMatch with its dereferenced type pointer. -/
structure HTTPHeaderMatch where
  type : String
  name : String
  value : String
deriving Repr, DecidableEq

/-- HTTPQueryParamMatch with its dereferenced type pointer. -/
structure HTTPQueryParamMatch where
  type : String
  name : String
  value : String
deriving Repr, DecidableEq

/-- HTTPRouteMatch. -/
structure HTTPRouteMatch where
  path : Option HTTPPathMatch
  headers : List HTTPHeaderMatch
  queryParams : List HTTPQueryParamMatch
  method : Option String
deriving Repr, DecidableEq

/-- One name/value pair of a RequestHeaderModifier filter. -/
structure HTTPHeader where
  name : String
  value : String
deriving Repr, DecidableEq

/-- HTTPRequestHeaderFilter. -/
structure HTTPRequestHeaderFilter where
  add : List HTTPHeader
  set : List HTTPHeader
  remove : List String
deriving Repr, DecidableEq

/-- HTTPRequestRedirectFilter. -/
structure HTTPRequestRedirectFilter where
  scheme : Option String
  hostname : Option String
  port : Option Int
  statusCode : Option Int
deriving Repr, DecidableEq

/-- HTTPRouteFilter: a tag string plus the optional per-kind payloads the
translator reads. -/
structure HTTPRouteFilter where
  type : String
  requestHeaderModifier : Option HTTPRequestHeaderFilter
  requestRedirect : Option HTTPRequestRedirectFilter
deriving Repr, DecidableEq

/-- HTTPBackendRef: kind/namespace/port/weight are pointers in Go. -/
structure HTTPBackendRef where
  kind : Option String
  namespace' : Option String
  name : String
  port : Option Int
  weight : Option Int
deriving Repr, DecidableEq

/-- HTTPRouteRule. -/
structure HTTPRouteRule where
  matches' : List HTTPRouteMatch
  filters : List HTTPRouteFilter
  backendRefs : List HTTPBackendRef
deriving Repr, DecidableEq

/-- HTTPRoute: object metadata (namespace/name) plus the spec fields the
translator reads. -/
structure HTTPRoute where
  namespace' : String
  name : String
  hostnames : List String
  rules : List HTTPRouteRule
deriving Repr, DecidableEq

/-- The external Service→Upstream resolver
(`KubeTranslator.TranslateService(namespace, name, subset, port)`),
a parameter of the translation. -/
abbrev Resolver := String → String → String → Int → Except String Upstream

/-- Embedding of Go `strings.ToLower` on one character; the inputs this
translator lowercases (backend kinds, header names) are ASCII by the
Gateway-API validation schema, so only ASCII case mapping is modelled. -/
def goToLowerChar (c : Char) : Char :=
  if 'A' ≤ c ∧ c ≤ 'Z' then Char.ofNat (c.toNat + 32) else c

/-- Embedding of Go `strings.ToLower` (ASCII fragment, see
`goToLowerChar`). -/
def goToLower (s : String) : String :=
  String.mk (s.data.map goToLowerChar)

/-- Embedding of Go `strings.ReplaceAll(s, "-", "_")`: with a single-rune
pattern and replacement this is a character map. -/
def replaceDashUnderscore (s : String) : String :=
  String.mk (s.data.map (fun c => if c = '-' then '_' else c))

/-! ### Filter compiler (`generatePluginsFromHTTPRouteFilter` and friends) -/

/-- The headers map built by `generatePluginFromHTTPRequestHeaderFilter`:
Add entries, then Set entries, then Remove entries as empty strings, all
collapsed into one Go map. -/
def requestHeaderFilterHeaders (m : HTTPRequestHeaderFilter) : HeadersMap :=
  let h0 : HeadersMap := []
  let h1 := m.add.foldl (fun acc hd => headersInsert acc hd.name hd.value) h0
  let h2 := m.set.foldl (fun acc hd => headersInsert acc hd.name hd.value) h1
  m.remove.foldl (fun acc n => headersInsert acc n "") h2

/-- Embedding of `generatePluginFromHTTPRequestHeaderFilter` (lines 50-69):
nil modifier is a no-op, otherwise a `proxy-rewrite` plugin is stored. -/
def generatePluginFromHTTPRequestHeaderFilter (plugins : Plugins)
    (reqHeaderModifier : Option HTTPRequestHeaderFilter) : Plugins :=
  match reqHeaderModifier with
  | none => plugins
  | some m =>
      pluginsInsert plugins "proxy-rewrite"
        (.rewrite { headers := requestHeaderFilterHeaders m })

/-- Embedding of `generatePluginFromHTTPRequestRedirectFilter`
(lines 71-103). -/
def generatePluginFromHTTPRequestRedirectFilter (plugins : Plugins)
    (reqRedirect : Option HTTPRequestRedirectFilter) : Plugins :=
  match reqRedirect with
  | none => plugins
  | some rd =>
      let code := rd.statusCode.getD 302
      let hostname := rd.hostname.getD "$host"
      let scheme := rd.scheme.getD "$scheme"
      let uri :=
        match rd.port with
        | some p => scheme ++ "://" ++ hostname ++ ":" ++ toString p ++ "$request_uri"
        | none => scheme ++ "://" ++ hostname ++ "$request_uri"
      pluginsInsert plugins "redirect" (.redirect { retCode := code, uri := uri })

/-- Body of the loop in `generatePluginsFromHTTPRouteFilter` (lines 37-46):
the switch on the filter type; RequestMirror and unknown kinds emit
nothing. -/
def applyFilter (plugins : Plugins) (filter : HTTPRouteFilter) : Plugins :=
  if filter.type == "RequestHeaderModifier" then
    generatePluginFromHTTPRequestHeaderFilter plugins filter.requestHeaderModifier
  else if filter.type == "RequestRedirect" then
    generatePluginFromHTTPRequestRedirectFilter plugins filter.requestRedirect
  else
    plugins

/-- Embedding of `generatePluginsFromHTTPRouteFilter` (lines 35-48). -/
def generatePluginsFromHTTPRouteFilter (filters : List HTTPRouteFilter) : Plugins :=
  filters.foldl applyFilter []

/-! ### Match compiler (`translateGatewayHTTPRouteMatch`, lines 249-342) -/

/-- Path switch of the match compiler (lines 252-274). -/
def translateMatchPath (route : Route) (path : Option HTTPPathMatch) :
    Except String Route :=
  match path with
  | none => .ok route
  | some p =>
      if p.type == "Exact" then
        .ok { route with uri := p.value }
      else if p.type == "PathPrefix" then
        .ok { route with uri := p.value ++ "*" }
      else if p.type == "RegularExpression" then
        .ok { route with vars := route.vars ++
          [[⟨"uri"⟩, ⟨"~~"⟩, ⟨p.value⟩]] }
      else
        .error ("unknown path match type " ++ p.type)

/-- Variable condition built for one header match (lines 277-304): name is
lowercased, dashes become underscores, an `http_` tag is prepended. -/
def headerVar (header : HTTPHeaderMatch) : Except String (List StringOrSlice) :=
  let name := replaceDashUnderscore (goToLower header.name)
  if header.type == "Exact" then
    .ok [⟨"http_" ++ name⟩, ⟨"=="⟩, ⟨header.value⟩]
  else if header.type == "RegularExpression" then
    .ok [⟨"http_" ++ name⟩, ⟨"~~"⟩, ⟨header.value⟩]
  else
    .error ("unknown header match type " ++ header.type)

/-- Header loop of the match compiler (lines 276-305). -/
def translateMatchHeaders (headers : List HTTPHeaderMatch) (route : Route) :
    Except String Route :=
  match headers with
  | [] => .ok route
  | h :: hs =>
      match headerVar h with
      | .error e => .error e
      | .ok v => translateMatchHeaders hs { route with vars := route.vars ++ [v] }

/-- Variable condition built for one query-parameter match (lines 308-332):
name is lowercased and an `arg_` tag is prepended. -/
def queryVar (query : HTTPQueryParamMatch) : Except String (List StringOrSlice) :=
  if query.type == "Exact" then
    .ok [⟨"arg_" ++ goToLower query.name⟩, ⟨"=="⟩, ⟨query.value⟩]
  else if query.type == "RegularExpression" then
    .ok [⟨"arg_" ++ goToLower query.name⟩, ⟨"~~"⟩, ⟨query.value⟩]
  else
    .error ("unknown query match type " ++ query.type)

/-- Query-parameter loop of the match compiler (lines 307-333). -/
def translateMatchQueries (queries : List HTTPQueryParamMatch) (route : Route) :
    Except String Route :=
  match queries with
  | [] => .ok route
  | q :: qs =>
      match queryVar q with
      | .error e => .error e
      | .ok v => translateMatchQueries qs { route with vars := route.vars ++ [v] }

/-- Embedding of `translateGatewayHTTPRouteMatch` (lines 249-342). -/
def translateGatewayHTTPRouteMatch (m : HTTPRouteMatch) : Except String Route :=
  match translateMatchPath NewDefaultRoute m.path with
  | .error e => .error e
  | .ok r1 =>
      match translateMatchHeaders m.headers r1 with
      | .error e => .error e
      | .ok r2 =>
          match translateMatchQueries m.queryParams r2 with
          | .error e => .error e
          | .ok r3 =>
              match m.method with
              | none => .ok r3
              | some meth => .ok { r3 with methods := [meth] }

/-! ### Backend aggregation (lines 132-192) -/

/-- Kind defaulting and lowercasing for one backend ref (lines 135-140). -/
def backendKind (backend : HTTPBackendRef) : String :=
  match backend.kind with
  | none => "service"
  | some k => goToLower k

/-- Weighted-upstream entry for one resolved backend (lines 181-191);
weight 1 is the BackendRef default. -/
def weightedUpstreamFor (upsId : String) (weight : Option Int) :
    TrafficSplitConfigRuleWeightedUpstream :=
  match weight with
  | none => { upstreamID := upsId, weight := 1 }
  | some w => { upstreamID := upsId, weight := w }

/-- Labelling and identifier assignment for one resolved backend
(lines 169-177): the three meta labels are written into the resolver's
upstream (namespace and backend name truncated to 64 characters, port
printed with Sprintf) and the deterministic identifier is assigned. -/
def resolvedUpstream (ns bname : String) (port : Int) (ups : Upstream) :
    Upstream :=
  let name := ComposeUpstreamName ns bname "" port ResolveGranularityEndpoint
  let labels := headersInsert ups.labels "meta_namespace" (TruncateString ns 64)
  let labels := headersInsert labels "meta_backend" (TruncateString bname 64)
  let labels := headersInsert labels "meta_port" (toString port)
  { ups with labels := labels, id := GenID name }

/-- Backend loop of `TranslateGatewayHTTPRouteV1Alpha2` (lines 132-192):
walks the rule's backend refs at rule index `i`, starting at backend index
`j`, accumulating the context, the resolved upstreams and the weighted
upstream list.  Non-service kinds and nil ports are skipped; a resolver
failure aborts with a positionally wrapped error. -/
def processBackends (resolver : Resolver) (routeNs : String) (i : Nat) :
    List HTTPBackendRef → Nat → TranslateContext → List Upstream →
    List TrafficSplitConfigRuleWeightedUpstream →
    Except String (TranslateContext × List Upstream ×
      List TrafficSplitConfigRuleWeightedUpstream)
  | [], _, ctx, rups, wups => .ok (ctx, rups, wups)
  | backend :: bs, j, ctx, rups, wups =>
      if backendKind backend != "service" then
        processBackends resolver routeNs i bs (j + 1) ctx rups wups
      else
        match backend.port with
        | none => processBackends resolver routeNs i bs (j + 1) ctx rups wups
        | some port =>
            let ns := backend.namespace'.getD routeNs
            match resolver ns backend.name "" port with
            | .error e =>
                .error ("failed to translate Rules[" ++ toString i ++
                  "].BackendRefs[" ++ toString j ++ "]: " ++ e)
            | .ok ups0 =>
                let ups := resolvedUpstream ns backend.name port ups0
                processBackends resolver routeNs i bs (j + 1)
                  (ctx.addUpstream ups) (rups ++ [ups])
                  (wups ++ [weightedUpstreamFor ups.id backend.weight])

/-! ### Route assembly (lines 200-240) -/

/-- Default match substituted when a rule has no matches (lines 201-212). -/
def defaultMatch : HTTPRouteMatch :=
  { path := some { type := "PathPrefix", value := "/" },
    headers := [], queryParams := [], method := none }

/-- Route assembly for one compiled match (lines 221-237): identifier from
the (namespace, name, rule index, match index) composite key, the shared
host list and plugin map, then the upstream binding: direct for a single
resolved upstream, a one-rule `traffic-split` plugin otherwise. -/
def buildMatchRoute (ns name : String) (hosts : List String) (plugins : Plugins)
    (rups : List Upstream)
    (wups : List TrafficSplitConfigRuleWeightedUpstream) (i j : Nat)
    (r0 : Route) : Route :=
  let r1 := { r0 with
    id := GenID (ComposeRouteName ns name (toString i ++ "-" ++ toString j)),
    hosts := hosts,
    plugins := plugins }
  match rups with
  | [u] => { r1 with upstreamId := u.id }
  | _ :: _ :: _ =>
      let conf := PluginConf.trafficSplit
        { rules := [{ weightedUpstreams := wups }] }
      { r1 with plugins := pluginsInsert r1.plugins "traffic-split" conf }
  | [] => r1

/-- Match loop of `TranslateGatewayHTTPRouteV1Alpha2` (lines 215-240):
compiles each match at rule index `i`, starting at match index `j`,
assembles the route and adds it to the context. -/
def translateMatches (ns name : String) (hosts : List String) (plugins : Plugins)
    (rups : List Upstream)
    (wups : List TrafficSplitConfigRuleWeightedUpstream) (i : Nat) :
    List HTTPRouteMatch → Nat → TranslateContext → Except String TranslateContext
  | [], _, ctx => .ok ctx
  | m :: ms, j, ctx =>
      match translateGatewayHTTPRouteMatch m with
      | .error e =>
          .error ("failed to translate Rules[" ++ toString i ++
            "].Matches[" ++ toString j ++ "]: " ++ e)
      | .ok r0 =>
          translateMatches ns name hosts plugins rups wups i ms (j + 1)
            (ctx.addRoute (buildMatchRoute ns name hosts plugins rups wups i j r0))

/-- Body of the rule loop (lines 123-244) for one rule at index `i`. -/
def translateRule (resolver : Resolver) (httpRoute : HTTPRoute)
    (hosts : List String) (i : Nat) (rule : HTTPRouteRule)
    (ctx : TranslateContext) : Except String TranslateContext :=
  if rule.backendRefs.isEmpty then
    .ok ctx
  else
    match processBackends resolver httpRoute.namespace' i rule.backendRefs 0 ctx [] [] with
    | .error e => .error e
    | .ok (ctx1, rups, wups) =>
        if rups.isEmpty then
          .ok ctx1
        else
          let ms := if rule.matches'.isEmpty then [defaultMatch] else rule.matches'
          let plugins := generatePluginsFromHTTPRouteFilter rule.filters
          translateMatches httpRoute.namespace' httpRoute.name hosts plugins
            rups wups i ms 0 ctx1

/-- Rule loop of `TranslateGatewayHTTPRouteV1Alpha2` (lines 123-244). -/
def translateRules (resolver : Resolver) (httpRoute : HTTPRoute)
    (hosts : List String) :
    List HTTPRouteRule → Nat → TranslateContext → Except String TranslateContext
  | [], _, ctx => .ok ctx
  | rule :: rest, i, ctx =>
      match translateRule resolver httpRoute hosts i rule ctx with
      | .error e => .error e
      | .ok ctx1 => translateRules resolver httpRoute hosts rest (i + 1) ctx1

/-- Embedding of `TranslateGatewayHTTPRouteV1Alpha2` (lines 105-247),
parameterized by the external resolver. -/
def TranslateGatewayHTTPRouteV1Alpha2 (resolver : Resolver)
    (httpRoute : HTTPRoute) : Except String TranslateContext :=
  translateRules resolver httpRoute httpRoute.hostnames httpRoute.rules 0
    DefaultEmptyTranslateContext

/-! ### Lemmas about the association-list map model -/

/-- Key lookup after an insert-or-replace: the inserted key reads back the
new value, every other key is untouched.  This is the Go map-assignment
law the plugin/label/header maps rely on. -/
theorem assocFind_assocInsert {β : Type} (m : List (String × β)) (k n : String)
    (v : β) :
    assocFind (assocInsert m k v) n = if n = k then some v else assocFind m n := by
  induction m with
  | nil =>
      by_cases hn : n = k
      · simp [assocInsert, assocFind, hn]
      · have hkn : ¬k = n := fun h => hn h.symm
        simp [assocInsert, assocFind, hn, hkn]
  | cons p t ih =>
      by_cases hp : p.1 = k
      · by_cases hn : n = k
        · simp [assocInsert, assocFind, hp, hn]
        · have hkn : ¬k = n := fun h => hn h.symm
          have hpn : ¬p.1 = n := fun h => hkn (hp.symm.trans h)
          simp [assocInsert, assocFind, hp, hn, hkn, hpn]
      · by_cases hn : n = k
        · subst hn
          have hpn : ¬p.1 = n := hp
          simp [assocInsert, assocFind, hp, hpn, ih]
        · simp only [assocInsert, if_neg hp]
          by_cases hpn : p.1 = n
          · simp [assocFind, hpn, hn]
          · simp [assocFind, hpn, hn, ih]

/-! ### Lemmas about the translation context -/

theorem TranslateContext.mem_addRoute {ctx : TranslateContext} {r x : Route}
    (h : x ∈ (ctx.addRoute r).routes) : x = r ∨ x ∈ ctx.routes := by
  unfold TranslateContext.addRoute at h
  by_cases hc : ctx.routes.any (fun y => y.id == r.id) = true
  · simp only [hc, if_true, List.mem_map] at h
    obtain ⟨y, hy, hxy⟩ := h
    by_cases hyr : y.id == r.id
    · left; simp [hyr] at hxy; exact hxy.symm
    · right; simp [hyr] at hxy; exact hxy ▸ hy
  · simp only [hc, if_false, Bool.false_eq_true, List.mem_append,
      List.mem_singleton] at h
    rcases h with h | h
    · right; exact h
    · left; exact h

theorem TranslateContext.upstreams_addRoute (ctx : TranslateContext) (r : Route) :
    (ctx.addRoute r).upstreams = ctx.upstreams := by
  unfold TranslateContext.addRoute
  split <;> rfl

theorem TranslateContext.mem_addUpstream {ctx : TranslateContext} {u x : Upstream}
    (h : x ∈ (ctx.addUpstream u).upstreams) : x = u ∨ x ∈ ctx.upstreams := by
  unfold TranslateContext.addUpstream at h
  by_cases hc : ctx.upstreams.any (fun y => y.id == u.id) = true
  · simp only [hc, if_true, List.mem_map] at h
    obtain ⟨y, hy, hxy⟩ := h
    by_cases hyu : y.id == u.id
    · left; simp [hyu] at hxy; exact hxy.symm
    · right; simp [hyu] at hxy; exact hxy ▸ hy
  · simp only [hc, if_false, Bool.false_eq_true, List.mem_append,
      List.mem_singleton] at h
    rcases h with h | h
    · right; exact h
    · left; exact h

theorem TranslateContext.routes_addUpstream (ctx : TranslateContext) (u : Upstream) :
    (ctx.addUpstream u).routes = ctx.routes := by
  unfold TranslateContext.addUpstream
  split <;> rfl

/-! ### Lemmas about the filter compiler -/

theorem find_headerFilter_other (ps : Plugins) (mo : Option HTTPRequestHeaderFilter)
    (k : String) (hk : k ≠ "proxy-rewrite") :
    assocFind (generatePluginFromHTTPRequestHeaderFilter ps mo) k = assocFind ps k := by
  cases mo with
  | none => rfl
  | some m =>
      simp [generatePluginFromHTTPRequestHeaderFilter, pluginsInsert,
        assocFind_assocInsert, hk]

theorem find_redirectFilter_other (ps : Plugins) (mo : Option HTTPRequestRedirectFilter)
    (k : String) (hk : k ≠ "redirect") :
    assocFind (generatePluginFromHTTPRequestRedirectFilter ps mo) k = assocFind ps k := by
  cases mo with
  | none => rfl
  | some rd =>
      simp [generatePluginFromHTTPRequestRedirectFilter, pluginsInsert,
        assocFind_assocInsert, hk]

theorem applyFilter_traffic_split (ps : Plugins) (f : HTTPRouteFilter) :
    assocFind (applyFilter ps f) "traffic-split" = assocFind ps "traffic-split" := by
  unfold applyFilter
  by_cases h1 : f.type = "RequestHeaderModifier"
  · simp only [h1, beq_self_eq_true, if_true]
    exact find_headerFilter_other ps f.requestHeaderModifier _ (by decide)
  · by_cases h2 : f.type = "RequestRedirect"
    · have e1 : (f.type == "RequestHeaderModifier") = false := beq_eq_false_iff_ne.2 h1
      simp only [e1, Bool.false_eq_true, if_false, h2, beq_self_eq_true, if_true]
      exact find_redirectFilter_other ps f.requestRedirect _ (by decide)
    · have e1 : (f.type == "RequestHeaderModifier") = false := beq_eq_false_iff_ne.2 h1
      have e2 : (f.type == "RequestRedirect") = false := beq_eq_false_iff_ne.2 h2
      simp [e1, e2]

theorem foldl_applyFilter_traffic_split (fs : List HTTPRouteFilter) (acc : Plugins) :
    assocFind (fs.foldl applyFilter acc) "traffic-split" =
      assocFind acc "traffic-split" := by
  induction fs generalizing acc with
  | nil => rfl
  | cons f t ih => rw [List.foldl_cons, ih, applyFilter_traffic_split]

/-- The filter compiler only ever emits `proxy-rewrite` and `redirect`, so
its output never carries a `traffic-split` entry. -/
theorem generatePlugins_traffic_split_none (fs : List HTTPRouteFilter) :
    assocFind (generatePluginsFromHTTPRouteFilter fs) "traffic-split" = none := by
  unfold generatePluginsFromHTTPRouteFilter
  rw [foldl_applyFilter_traffic_split]
  rfl

/-! ### C10: supported-kind check for backend refs -/

/-- C10: the supported-kind check accepts exactly the backend refs whose
Kind is absent (defaulting to "service") or whose Kind lowercases to
"service"; every other kind makes the backend loop skip the ref and move
to the next one with the accumulators unchanged. -/
theorem backendKind_service_iff (b : HTTPBackendRef) :
    (backendKind b = "service" ↔
      b.kind = none ∨ ∃ k, b.kind = some k ∧ goToLower k = "service") ∧
    (∀ (resolver : Resolver) (routeNs : String) (i : Nat)
        (bs : List HTTPBackendRef) (j : Nat) (ctx : TranslateContext)
        (rups : List Upstream)
        (wups : List TrafficSplitConfigRuleWeightedUpstream),
      backendKind b ≠ "service" →
      processBackends resolver routeNs i (b :: bs) j ctx rups wups =
        processBackends resolver routeNs i bs (j + 1) ctx rups wups) := by
  constructor
  · cases hk : b.kind with
    | none => simp [backendKind, hk]
    | some k =>
        simp only [backendKind, hk]
        constructor
        · intro h; exact Or.inr ⟨k, rfl, h⟩
        · rintro (h | ⟨k', hk', hks⟩)
          · cases h
          · cases hk'; exact hks
  · intro resolver routeNs i bs j ctx rups wups hne
    simp only [processBackends]
    rw [if_pos (bne_iff_ne.2 hne)]

/-- Concrete backend ref with mixed-case kind "Service". -/
def serviceKindBackend : HTTPBackendRef :=
  { kind := some "Service", namespace' := none, name := "s",
    port := some 80, weight := none }

/-- Concrete backend ref with kind "Secret". -/
def secretKindBackend : HTTPBackendRef :=
  { kind := some "Secret", namespace' := none, name := "s",
    port := some 80, weight := none }

/-- Witness for C10: the mixed-case kind "Service" is accepted, and a
"Secret" backend ref is skipped by the loop. -/
theorem backendKind_service_iff_witness :
    backendKind serviceKindBackend = "service" ∧
    processBackends (fun _ _ _ _ => .error "down") "ns" 0
        [secretKindBackend] 0 DefaultEmptyTranslateContext [] [] =
      .ok (DefaultEmptyTranslateContext, [], []) := by
  constructor
  · exact (backendKind_service_iff serviceKindBackend).1.2
      (Or.inr ⟨"Service", rfl, by decide⟩)
  · rw [(backendKind_service_iff secretKindBackend).2 (fun _ _ _ _ => .error "down")
      "ns" 0 [] 0 DefaultEmptyTranslateContext [] [] (by decide)]
    rfl

/-! ### C8: RequestHeaderModifier filter compilation -/

/-- Value of the last entry for a given header name in a filter entry list,
the reference semantics of repeated Go map assignment. -/
def lastHeaderValue : List HTTPHeader → String → Option String
  | [], _ => none
  | h :: t, n =>
      (lastHeaderValue t n).or (if h.name = n then some h.value else none)

theorem assocFind_foldl_headersInsert (hs : List HTTPHeader) (acc : HeadersMap)
    (n : String) :
    assocFind (hs.foldl (fun a h => headersInsert a h.name h.value) acc) n =
      (lastHeaderValue hs n).or (assocFind acc n) := by
  induction hs generalizing acc with
  | nil => rfl
  | cons h t ih =>
      simp only [List.foldl_cons, lastHeaderValue]
      rw [ih]
      unfold headersInsert
      rw [assocFind_assocInsert]
      by_cases hn : h.name = n
      · have hn' : n = h.name := hn.symm
        rw [if_pos hn', if_pos hn]
        cases lastHeaderValue t n <;> rfl
      · have hn' : ¬n = h.name := fun h' => hn h'.symm
        rw [if_neg hn', if_neg hn]
        cases lastHeaderValue t n <;> rfl

theorem assocFind_foldl_removeInsert (rs : List String) (acc : HeadersMap)
    (n : String) :
    assocFind (rs.foldl (fun a x => headersInsert a x "") acc) n =
      if n ∈ rs then some "" else assocFind acc n := by
  induction rs generalizing acc with
  | nil => simp
  | cons r t ih =>
      simp only [List.foldl_cons]
      rw [ih]
      unfold headersInsert
      rw [assocFind_assocInsert]
      by_cases hm : n ∈ t
      · simp [hm]
      · by_cases hr : n = r
        · simp [hm, hr]
        · simp [List.mem_cons, hm, hr]

/-- C8: a non-nil RequestHeaderModifier emits a `proxy-rewrite` plugin whose
single headers map applies Add entries, then Set entries (a Set entry
overwrites an Add entry with the same name), then Remove entries as empty
strings; the filter compiler is a total function (it cannot return an
error), and filter kinds other than the two handled ones emit no plugin at
all. -/
theorem requestHeaderModifier_semantics (m : HTTPRequestHeaderFilter)
    (plugins : Plugins) (n : String) :
    (assocFind (generatePluginFromHTTPRequestHeaderFilter plugins (some m))
        "proxy-rewrite" =
      some (.rewrite { headers := requestHeaderFilterHeaders m })) ∧
    (n ∈ m.remove → assocFind (requestHeaderFilterHeaders m) n = some "") ∧
    (n ∉ m.remove → assocFind (requestHeaderFilterHeaders m) n =
      (lastHeaderValue m.set n).or (lastHeaderValue m.add n)) ∧
    (∀ (f : HTTPRouteFilter) (ps : Plugins), f.type ≠ "RequestHeaderModifier" →
      f.type ≠ "RequestRedirect" → applyFilter ps f = ps) := by
  refine ⟨?_, ?_, ?_, ?_⟩
  · simp [generatePluginFromHTTPRequestHeaderFilter, pluginsInsert,
      assocFind_assocInsert]
  · intro hmem
    unfold requestHeaderFilterHeaders
    rw [assocFind_foldl_removeInsert]
    simp [hmem]
  · intro hmem
    unfold requestHeaderFilterHeaders
    rw [assocFind_foldl_removeInsert]
    simp only [hmem, if_false]
    rw [assocFind_foldl_headersInsert, assocFind_foldl_headersInsert]
    simp [assocFind]
  · intro f ps h1 h2
    unfold applyFilter
    simp [beq_eq_false_iff_ne.2 h1, beq_eq_false_iff_ne.2 h2]

/-- Sample RequestHeaderModifier used by the C8 witness. -/
def sampleHeaderFilter : HTTPRequestHeaderFilter :=
  { add := [{ name := "X-A", value := "1" }],
    set := [{ name := "X-A", value := "9" }],
    remove := ["X-B"] }

/-- Witness for C8 at a concrete filter: the Set entry for X-A overwrites
the Add entry. -/
theorem requestHeaderModifier_semantics_witness :
    assocFind (requestHeaderFilterHeaders sampleHeaderFilter) "X-A" =
      (lastHeaderValue sampleHeaderFilter.set "X-A").or
        (lastHeaderValue sampleHeaderFilter.add "X-A") :=
  (requestHeaderModifier_semantics sampleHeaderFilter [] "X-A").2.2.1 (by decide)

/-! ### C9: upstream labels and truncation -/

theorem TruncateString_length (s : String) (n : Nat) :
    (TruncateString s n).length = min n s.length := by
  show (String.mk (s.data.take n)).length = min n s.length
  rw [String.length_mk, List.length_take]
  rfl

/-- C9: the upstream object added to the context for a resolved backend
carries exactly the three meta labels (when the resolver-returned upstream
carries none of its own), each label value is at most 64 characters long
(ports are int32, so their decimal form is always short), and a backend
name longer than 64 characters is truncated to exactly 64. -/
theorem resolvedUpstream_labels (ns bname : String) (port : Int) (ups : Upstream)
    (hlab : ups.labels = []) (h0 : 0 ≤ port) (hp : port < 2 ^ 31) :
    (resolvedUpstream ns bname port ups).labels =
      [("meta_namespace", TruncateString ns 64),
       ("meta_backend", TruncateString bname 64),
       ("meta_port", toString port)] ∧
    (∀ kv ∈ (resolvedUpstream ns bname port ups).labels, kv.2.length ≤ 64) ∧
    (64 < bname.length → (TruncateString bname 64).length = 64) := by
  have h1 : (resolvedUpstream ns bname port ups).labels =
      [("meta_namespace", TruncateString ns 64),
       ("meta_backend", TruncateString bname 64),
       ("meta_port", toString port)] := by
    simp [resolvedUpstream, headersInsert, assocInsert, hlab]
  have htr : ∀ s : String, (TruncateString s 64).length ≤ 64 := by
    intro s
    rw [TruncateString_length]
    exact min_le_left _ _
  have hport : (toString port).length ≤ 64 := by
    obtain ⟨np, rfl⟩ := Int.eq_ofNat_of_zero_le h0
    have hrepr : toString ((np : Int)) = Nat.repr np := rfl
    rw [hrepr]
    have hnp : np < 10 ^ 10 := by
      have hcast : (np : Int) < 2 ^ 31 := hp
      have : np < 2 ^ 31 := by exact_mod_cast hcast
      omega
    exact le_trans (Nat.repr_length np 10 (by norm_num) hnp) (by norm_num)
  refine ⟨h1, ?_, ?_⟩
  · intro kv hkv
    rw [h1] at hkv
    simp only [List.mem_cons, List.not_mem_nil, or_false] at hkv
    rcases hkv with h | h | h
    · subst h; exact htr ns
    · subst h; exact htr bname
    · subst h; exact hport
  · intro hlong
    rw [TruncateString_length]
    omega

/-- Backend name of 70 characters for the C9 witness. -/
def longBackendName : String :=
  "b234567890b234567890b234567890b234567890b234567890b234567890b234567890"

/-- Witness for C9 at a concrete over-long backend name and port 80. -/
theorem resolvedUpstream_labels_witness :
    (resolvedUpstream "ns" longBackendName 80
        { id := "", name := "n", labels := [] }).labels =
      [("meta_namespace", TruncateString "ns" 64),
       ("meta_backend", TruncateString longBackendName 64),
       ("meta_port", toString (80 : Int))] ∧
    64 < longBackendName.length ∧
    (TruncateString longBackendName 64).length = 64 := by
  have h := resolvedUpstream_labels "ns" longBackendName 80
    { id := "", name := "n", labels := [] } rfl (by decide) (by decide)
  exact ⟨h.1, by decide, h.2.2 (by decide)⟩

/-! ### C6: variable-condition order and shape -/

/-- Variable conditions contributed by the path matcher: only a
RegularExpression path match adds one. -/
def pathRegexVars (path : Option HTTPPathMatch) : List (List StringOrSlice) :=
  match path with
  | none => []
  | some p =>
      if p.type = "RegularExpression" then [[⟨"uri"⟩, ⟨"~~"⟩, ⟨p.value⟩]] else []

/-- Expected variable condition for one recognized header match. -/
def headerVarTriple (h : HTTPHeaderMatch) : List StringOrSlice :=
  [⟨"http_" ++ replaceDashUnderscore (goToLower h.name)⟩,
   ⟨if h.type = "Exact" then "==" else "~~"⟩, ⟨h.value⟩]

/-- Expected variable condition for one recognized query-parameter match. -/
def queryVarTriple (q : HTTPQueryParamMatch) : List StringOrSlice :=
  [⟨"arg_" ++ goToLower q.name⟩,
   ⟨if q.type = "Exact" then "==" else "~~"⟩, ⟨q.value⟩]

theorem translateMatchPath_ok (r : Route) (path : Option HTTPPathMatch)
    (hp : ∀ p, path = some p →
      p.type = "Exact" ∨ p.type = "PathPrefix" ∨ p.type = "RegularExpression") :
    ∃ r', translateMatchPath r path = .ok r' ∧
      r'.vars = r.vars ++ pathRegexVars path := by
  cases path with
  | none => exact ⟨r, rfl, by simp [pathRegexVars]⟩
  | some p =>
      rcases hp p rfl with ht | ht | ht
      · refine ⟨{ r with uri := p.value }, ?_, ?_⟩
        · simp [translateMatchPath, ht]
        · simp [pathRegexVars, ht]
      · refine ⟨{ r with uri := p.value ++ "*" }, ?_, ?_⟩
        · simp [translateMatchPath, ht]
        · simp [pathRegexVars, ht]
      · refine ⟨{ r with vars := r.vars ++ [[⟨"uri"⟩, ⟨"~~"⟩, ⟨p.value⟩]] }, ?_, ?_⟩
        · simp [translateMatchPath, ht]
        · simp [pathRegexVars, ht]

theorem headerVar_ok (h : HTTPHeaderMatch)
    (ht : h.type = "Exact" ∨ h.type = "RegularExpression") :
    headerVar h = .ok (headerVarTriple h) := by
  rcases ht with ht | ht <;> simp [headerVar, headerVarTriple, ht]

theorem translateMatchHeaders_ok (hs : List HTTPHeaderMatch) (r : Route)
    (hh : ∀ h ∈ hs, h.type = "Exact" ∨ h.type = "RegularExpression") :
    translateMatchHeaders hs r =
      .ok { r with vars := r.vars ++ hs.map headerVarTriple } := by
  induction hs generalizing r with
  | nil => simp [translateMatchHeaders]
  | cons h t ih =>
      have e := headerVar_ok h (hh h (List.mem_cons_self h t))
      have e2 := ih { r with vars := r.vars ++ [headerVarTriple h] }
        (fun x hx => hh x (List.mem_cons_of_mem h hx))
      simp only [translateMatchHeaders, e, e2]
      simp

theorem queryVar_ok (q : HTTPQueryParamMatch)
    (ht : q.type = "Exact" ∨ q.type = "RegularExpression") :
    queryVar q = .ok (queryVarTriple q) := by
  rcases ht with ht | ht <;> simp [queryVar, queryVarTriple, ht]

theorem translateMatchQueries_ok (qs : List HTTPQueryParamMatch) (r : Route)
    (hq : ∀ q ∈ qs, q.type = "Exact" ∨ q.type = "RegularExpression") :
    translateMatchQueries qs r =
      .ok { r with vars := r.vars ++ qs.map queryVarTriple } := by
  induction qs generalizing r with
  | nil => simp [translateMatchQueries]
  | cons q t ih =>
      have e := queryVar_ok q (hq q (List.mem_cons_self q t))
      have e2 := ih { r with vars := r.vars ++ [queryVarTriple q] }
        (fun x hx => hq x (List.mem_cons_of_mem q hx))
      simp only [translateMatchQueries, e, e2]
      simp

/-- C6: for a match all of whose path/header/query types are recognized,
compilation succeeds and the route's variable conditions are exactly the
path regex condition (if any), then the headers in declaration order (name
lowercased, dashes to underscores, `http_` tag, equality or regex
operator), then the query parameters in declaration order (`arg_` tag on
the lowercased name, same operator rule). -/
theorem match_vars_in_order (m : HTTPRouteMatch) (r : Route)
    (hpath : ∀ p, m.path = some p →
      p.type = "Exact" ∨ p.type = "PathPrefix" ∨ p.type = "RegularExpression")
    (hhead : ∀ h ∈ m.headers, h.type = "Exact" ∨ h.type = "RegularExpression")
    (hquery : ∀ q ∈ m.queryParams, q.type = "Exact" ∨ q.type = "RegularExpression")
    (hok : translateGatewayHTTPRouteMatch m = .ok r) :
    r.vars = pathRegexVars m.path ++ m.headers.map headerVarTriple ++
      m.queryParams.map queryVarTriple := by
  obtain ⟨r1, e1, v1⟩ := translateMatchPath_ok NewDefaultRoute m.path hpath
  have e2 := translateMatchHeaders_ok m.headers r1 hhead
  have e3 := translateMatchQueries_ok m.queryParams
    { r1 with vars := r1.vars ++ m.headers.map headerVarTriple } hquery
  unfold translateGatewayHTTPRouteMatch at hok
  rw [e1] at hok
  simp only [e2, e3] at hok
  cases hm : m.method with
  | none =>
      rw [hm] at hok
      cases hok
      simp [v1, NewDefaultRoute]
  | some meth =>
      rw [hm] at hok
      cases hok
      simp [v1, NewDefaultRoute]

/-- Sample match for the C6 witness: regex path, one Exact header X-Foo,
one regex query parameter. -/
def sampleMatch : HTTPRouteMatch :=
  { path := some { type := "RegularExpression", value := "/a.*" },
    headers := [{ type := "Exact", name := "X-Foo", value := "bar" }],
    queryParams := [{ type := "RegularExpression", name := "Q", value := "v.*" }],
    method := some "GET" }

/-- Compiled form of sampleMatch, used by the C6 witness. -/
def sampleMatchRoute : Route :=
  { id := "", uri := "", hosts := [], methods := ["GET"],
    plugins := [], upstreamId := "",
    vars := [[⟨"uri"⟩, ⟨"~~"⟩, ⟨"/a.*"⟩], [⟨"http_x_foo"⟩, ⟨"=="⟩, ⟨"bar"⟩],
      [⟨"arg_q"⟩, ⟨"~~"⟩, ⟨"v.*"⟩]] }

/-- Witness for C6: the sample match compiles to the expected ordered
variable conditions, including the http_x_foo equality triple. -/
theorem match_vars_in_order_witness :
    (NewDefaultRoute.vars ++ [[⟨"uri"⟩, ⟨"~~"⟩, ⟨"/a.*"⟩],
        [⟨"http_x_foo"⟩, ⟨"=="⟩, ⟨"bar"⟩], [⟨"arg_q"⟩, ⟨"~~"⟩, ⟨"v.*"⟩]] :
      List (List StringOrSlice)).tail.head? = some [⟨"http_x_foo"⟩, ⟨"=="⟩, ⟨"bar"⟩] ∧
    ∃ r, translateGatewayHTTPRouteMatch sampleMatch = .ok r ∧
      r.vars = pathRegexVars sampleMatch.path ++
        sampleMatch.headers.map headerVarTriple ++
        sampleMatch.queryParams.map queryVarTriple := by
  refine ⟨rfl, sampleMatchRoute, rfl, ?_⟩
  exact match_vars_in_order sampleMatch sampleMatchRoute (by decide) (by decide)
    (by decide) rfl

/-! ### Preservation lemmas for the match compiler -/

theorem translateMatchPath_upstreamId (r : Route) (p : Option HTTPPathMatch)
    (r' : Route) (h : translateMatchPath r p = .ok r') :
    r'.upstreamId = r.upstreamId := by
  cases p with
  | none => cases h; rfl
  | some pm =>
      unfold translateMatchPath at h
      by_cases h1 : pm.type = "Exact"
      · simp only [beq_eq_false_iff_ne, h1, beq_self_eq_true, if_true] at h
        cases h; rfl
      · simp only [beq_eq_false_iff_ne.2 h1, Bool.false_eq_true, if_false] at h
        by_cases h2 : pm.type = "PathPrefix"
        · simp only [h2, beq_self_eq_true, if_true] at h
          cases h; rfl
        · simp only [beq_eq_false_iff_ne.2 h2, Bool.false_eq_true, if_false] at h
          by_cases h3 : pm.type = "RegularExpression"
          · simp only [h3, beq_self_eq_true, if_true] at h
            cases h; rfl
          · simp only [beq_eq_false_iff_ne.2 h3, Bool.false_eq_true, if_false] at h
            cases h

theorem translateMatchHeaders_upstreamId (hs : List HTTPHeaderMatch)
    (r r' : Route) (h : translateMatchHeaders hs r = .ok r') :
    r'.upstreamId = r.upstreamId := by
  induction hs generalizing r with
  | nil => cases h; rfl
  | cons x t ih =>
      rw [translateMatchHeaders] at h
      cases hv : headerVar x with
      | error e => simp only [hv] at h; cases h
      | ok v =>
          simp only [hv] at h
          exact ih { r with vars := r.vars ++ [v] } h

theorem translateMatchQueries_upstreamId (qs : List HTTPQueryParamMatch)
    (r r' : Route) (h : translateMatchQueries qs r = .ok r') :
    r'.upstreamId = r.upstreamId := by
  induction qs generalizing r with
  | nil => cases h; rfl
  | cons x t ih =>
      rw [translateMatchQueries] at h
      cases hv : queryVar x with
      | error e => simp only [hv] at h; cases h
      | ok v =>
          simp only [hv] at h
          exact ih { r with vars := r.vars ++ [v] } h

/-- A compiled match never carries an upstream binding of its own; the
binding is added later by the match loop. -/
theorem translateGatewayHTTPRouteMatch_upstreamId (m : HTTPRouteMatch)
    (r : Route) (h : translateGatewayHTTPRouteMatch m = .ok r) :
    r.upstreamId = "" := by
  unfold translateGatewayHTTPRouteMatch at h
  cases e1 : translateMatchPath NewDefaultRoute m.path with
  | error e => simp only [e1] at h; cases h
  | ok r1 =>
      simp only [e1] at h
      cases e2 : translateMatchHeaders m.headers r1 with
      | error e => simp only [e2] at h; cases h
      | ok r2 =>
          simp only [e2] at h
          cases e3 : translateMatchQueries m.queryParams r2 with
          | error e => simp only [e3] at h; cases h
          | ok r3 =>
              simp only [e3] at h
              have u1 := translateMatchPath_upstreamId _ _ _ e1
              have u2 := translateMatchHeaders_upstreamId _ _ _ e2
              have u3 := translateMatchQueries_upstreamId _ _ _ e3
              cases hm : m.method with
              | none =>
                  simp only [hm] at h
                  cases h
                  rw [u3, u2, u1]; rfl
              | some meth =>
                  simp only [hm] at h
                  cases h
                  show r3.upstreamId = ""
                  rw [u3, u2, u1]; rfl

/-! ### Concrete inputs shared by several witnesses -/

/-- Resolver used by concrete witnesses: always resolves, returning an
upstream with no labels. -/
def okResolver : Resolver := fun ns nm _ port =>
  .ok { id := "", name := ns ++ "/" ++ nm ++ ":" ++ toString port, labels := [] }

/-- Service backend ref svc:80 with defaulted kind and namespace. -/
def svcBackend : HTTPBackendRef :=
  { kind := none, namespace' := none, name := "svc",
    port := some 80, weight := none }

/-- Rule with no matches and one valid service backend (port 80). -/
def noMatchRule : HTTPRouteRule :=
  { matches' := [], filters := [], backendRefs := [svcBackend] }

/-- HTTPRoute with hostname foo.com and the single no-match rule. -/
def noMatchHTTPRoute : HTTPRoute :=
  { namespace' := "ns", name := "r", hostnames := ["foo.com"],
    rules := [noMatchRule] }

/-- The upstream okResolver produces for backend svc:80 of noMatchRule. -/
def noMatchUpstream : Upstream :=
  { id := "id-ns_svc__80_endpoint", name := "ns/svc:80",
    labels := [("meta_namespace", "ns"), ("meta_backend", "svc"),
      ("meta_port", "80")] }

/-! ### C5: rules whose backends all skip contribute nothing -/

theorem processBackends_all_skipped (resolver : Resolver) (routeNs : String)
    (i : Nat) (bs : List HTTPBackendRef) (j : Nat) (ctx : TranslateContext)
    (rups : List Upstream) (wups : List TrafficSplitConfigRuleWeightedUpstream)
    (hskip : ∀ b ∈ bs, backendKind b ≠ "service" ∨ b.port = none) :
    processBackends resolver routeNs i bs j ctx rups wups =
      .ok (ctx, rups, wups) := by
  revert hskip
  induction bs generalizing j with
  | nil => intro _; rfl
  | cons b t ih =>
      intro hskip
      have hb := hskip b (List.mem_cons_self b t)
      have ht : ∀ x ∈ t, backendKind x ≠ "service" ∨ x.port = none :=
        fun x hx => hskip x (List.mem_cons_of_mem b hx)
      simp only [processBackends]
      by_cases hk : backendKind b = "service"
      · have hp : b.port = none := by
          rcases hb with hb | hb
          · exact absurd hk hb
          · exact hb
        have hcond : (backendKind b != "service") = false := by
          simp [hk]
        simp only [hcond, Bool.false_eq_true, if_false, hp]
        exact ih (j + 1) ht
      · rw [if_pos (bne_iff_ne.2 hk)]
        exact ih (j + 1) ht

/-- C5: a rule all of whose backend refs are skipped (unsupported kind or
missing port) produces no Route and no Upstream — the context is returned
untouched — and the rule loop continues to the sibling rules exactly as if
the rule were absent. -/
theorem skipped_rule_contributes_nothing (resolver : Resolver) (hr : HTTPRoute)
    (hosts : List String) (rule : HTTPRouteRule) (rest : List HTTPRouteRule)
    (i : Nat) (ctx : TranslateContext)
    (hskip : ∀ b ∈ rule.backendRefs, backendKind b ≠ "service" ∨ b.port = none) :
    translateRule resolver hr hosts i rule ctx = .ok ctx ∧
    translateRules resolver hr hosts (rule :: rest) i ctx =
      translateRules resolver hr hosts rest (i + 1) ctx := by
  have h1 : translateRule resolver hr hosts i rule ctx = .ok ctx := by
    unfold translateRule
    cases hb : rule.backendRefs with
    | nil => simp
    | cons b bs =>
        have hpb := processBackends_all_skipped resolver hr.namespace' i
          (b :: bs) 0 ctx [] [] (hb ▸ hskip)
        simp only [List.isEmpty_cons, Bool.false_eq_true, if_false, hb, hpb]
        rfl
  refine ⟨h1, ?_⟩
  rw [translateRules]
  simp only [h1]

/-- Backend ref with kind service but no port, skipped by the loop. -/
def portlessBackend : HTTPBackendRef :=
  { kind := none, namespace' := none, name := "svc", port := none,
    weight := none }

/-- Rule whose only backend has no port. -/
def portlessRule : HTTPRouteRule :=
  { matches' := [], filters := [], backendRefs := [portlessBackend] }

/-- Witness for C5: the port-less rule is skipped and translation continues
with the sibling rule at the next index. -/
theorem skipped_rule_contributes_nothing_witness :
    translateRule okResolver noMatchHTTPRoute noMatchHTTPRoute.hostnames 0
        portlessRule DefaultEmptyTranslateContext =
      .ok DefaultEmptyTranslateContext ∧
    translateRules okResolver noMatchHTTPRoute noMatchHTTPRoute.hostnames
        (portlessRule :: [noMatchRule]) 0 DefaultEmptyTranslateContext =
      translateRules okResolver noMatchHTTPRoute noMatchHTTPRoute.hostnames
        [noMatchRule] (0 + 1) DefaultEmptyTranslateContext :=
  skipped_rule_contributes_nothing okResolver noMatchHTTPRoute
    noMatchHTTPRoute.hostnames portlessRule [noMatchRule] 0
    DefaultEmptyTranslateContext (by decide)

/-! ### C3: direct binding versus traffic-split, weight defaulting -/

theorem translateMatches_routes (ns name : String) (hosts : List String)
    (plugins : Plugins) (rups : List Upstream)
    (wups : List TrafficSplitConfigRuleWeightedUpstream) (i : Nat)
    (ms : List HTTPRouteMatch) (j : Nat) (ctx ctx' : TranslateContext)
    (hok : translateMatches ns name hosts plugins rups wups i ms j ctx = .ok ctx') :
    ∀ r ∈ ctx'.routes, r ∈ ctx.routes ∨
      ∃ (j' : Nat) (m : HTTPRouteMatch) (r0 : Route),
        translateGatewayHTTPRouteMatch m = .ok r0 ∧
        r = buildMatchRoute ns name hosts plugins rups wups i j' r0 := by
  revert hok
  induction ms generalizing j ctx with
  | nil =>
      intro hok
      cases hok
      exact fun r hr => Or.inl hr
  | cons m t ih =>
      intro hok
      rw [translateMatches] at hok
      cases hm : translateGatewayHTTPRouteMatch m with
      | error e => simp only [hm] at hok; cases hok
      | ok r0 =>
          simp only [hm] at hok
          intro r hr
          rcases ih (j + 1) _ hok r hr with hmem | hexist
          · rcases TranslateContext.mem_addRoute hmem with heq | hmem2
            · exact Or.inr ⟨j, m, r0, hm, heq⟩
            · exact Or.inl hmem2
          · exact Or.inr hexist

theorem buildMatchRoute_binding (ns name : String) (hosts : List String)
    (plugins : Plugins) (rups : List Upstream)
    (wups : List TrafficSplitConfigRuleWeightedUpstream) (i j : Nat)
    (r0 : Route) (hplug : assocFind plugins "traffic-split" = none)
    (hne : rups ≠ []) (h0 : r0.upstreamId = "") :
    (∃ u, rups = [u] ∧
      (buildMatchRoute ns name hosts plugins rups wups i j r0).upstreamId = u.id ∧
      assocFind (buildMatchRoute ns name hosts plugins rups wups i j r0).plugins
        "traffic-split" = none) ∨
    (2 ≤ rups.length ∧
      (buildMatchRoute ns name hosts plugins rups wups i j r0).upstreamId = "" ∧
      assocFind (buildMatchRoute ns name hosts plugins rups wups i j r0).plugins
        "traffic-split" =
        some (.trafficSplit { rules := [{ weightedUpstreams := wups }] })) := by
  cases rups with
  | nil => exact absurd rfl hne
  | cons u1 us =>
      cases us with
      | nil =>
          left
          exact ⟨u1, rfl, rfl, hplug⟩
      | cons u2 us2 =>
          right
          refine ⟨?_, h0, ?_⟩
          · simp only [List.length_cons]
            omega
          · show assocFind (pluginsInsert plugins "traffic-split"
              (.trafficSplit { rules := [{ weightedUpstreams := wups }] }))
              "traffic-split" = _
            unfold pluginsInsert
            rw [assocFind_assocInsert]
            simp

/-- C3: every route generated by the match loop of a rule with at least one
resolved upstream is bound exactly one way: a single resolved upstream
gives a direct upstream identifier and no traffic-split plugin; two or
more give a traffic-split plugin with one rule listing the weighted
upstreams and leave the direct identifier empty.  Weights in the weighted
list default to 1 when the backend ref carries none. -/
theorem route_binding_exclusive (ns name : String) (hosts : List String)
    (plugins : Plugins) (rups : List Upstream)
    (wups : List TrafficSplitConfigRuleWeightedUpstream) (i : Nat)
    (ms : List HTTPRouteMatch) (j : Nat) (ctx ctx' : TranslateContext)
    (hplug : assocFind plugins "traffic-split" = none)
    (hne : rups ≠ [])
    (hok : translateMatches ns name hosts plugins rups wups i ms j ctx = .ok ctx') :
    (∀ r ∈ ctx'.routes, r ∈ ctx.routes ∨
      (∃ u, rups = [u] ∧ r.upstreamId = u.id ∧
        assocFind r.plugins "traffic-split" = none) ∨
      (2 ≤ rups.length ∧ r.upstreamId = "" ∧
        assocFind r.plugins "traffic-split" =
          some (.trafficSplit { rules := [{ weightedUpstreams := wups }] }))) ∧
    (∀ (upsId : String) (w : Option Int),
      (weightedUpstreamFor upsId w).weight = w.getD 1) := by
  constructor
  · intro r hr
    rcases translateMatches_routes ns name hosts plugins rups wups i ms j ctx ctx'
      hok r hr with h | ⟨j', m, r0, hm0, rfl⟩
    · exact Or.inl h
    · have h0 := translateGatewayHTTPRouteMatch_upstreamId m r0 hm0
      rcases buildMatchRoute_binding ns name hosts plugins rups wups i j' r0
        hplug hne h0 with hb | hb
      · exact Or.inr (Or.inl hb)
      · exact Or.inr (Or.inr hb)
  · intro upsId w
    cases w <;> rfl

/-- Second upstream (svc2:81) used by the C3 witness. -/
def secondUpstream : Upstream :=
  { id := "id-ns_svc2__81_endpoint", name := "ns/svc2:81", labels := [] }

/-- Weighted list with weights 1 and 3 used by the C3 witness. -/
def sampleWeighted : List TrafficSplitConfigRuleWeightedUpstream :=
  [{ upstreamID := noMatchUpstream.id, weight := 1 },
   { upstreamID := secondUpstream.id, weight := 3 }]

/-- Compiled default match: the match-all wildcard route. -/
def defaultMatchRoute : Route :=
  { NewDefaultRoute with uri := "/*" }

/-- Witness for C3 at two resolved upstreams: the emitted route carries the
traffic-split binding and no direct upstream identifier. -/
theorem route_binding_exclusive_witness :
    (∀ r ∈ (DefaultEmptyTranslateContext.addRoute
        (buildMatchRoute "ns" "r" [] [] [noMatchUpstream, secondUpstream]
          sampleWeighted 0 0 defaultMatchRoute)).routes,
      r ∈ DefaultEmptyTranslateContext.routes ∨
      (∃ u, [noMatchUpstream, secondUpstream] = [u] ∧ r.upstreamId = u.id ∧
        assocFind r.plugins "traffic-split" = none) ∨
      (2 ≤ ([noMatchUpstream, secondUpstream] : List Upstream).length ∧
        r.upstreamId = "" ∧
        assocFind r.plugins "traffic-split" =
          some (.trafficSplit { rules := [{ weightedUpstreams := sampleWeighted }] }))) ∧
    (∀ (upsId : String) (w : Option Int),
      (weightedUpstreamFor upsId w).weight = w.getD 1) :=
  route_binding_exclusive "ns" "r" [] [] [noMatchUpstream, secondUpstream]
    sampleWeighted 0 [defaultMatch] 0 DefaultEmptyTranslateContext
    (DefaultEmptyTranslateContext.addRoute
      (buildMatchRoute "ns" "r" [] [] [noMatchUpstream, secondUpstream]
        sampleWeighted 0 0 defaultMatchRoute))
    rfl (by decide) rfl

/-! ### C4: resolver failure aborts the whole translation -/

/-- A backend ref the loop either skips (unsupported kind / nil port) or
resolves successfully under the given resolver. -/
def BackendSkippedOrResolved (resolver : Resolver) (routeNs : String)
    (b : HTTPBackendRef) : Prop :=
  backendKind b ≠ "service" ∨ b.port = none ∨
    ∃ port u, b.port = some port ∧
      resolver (b.namespace'.getD routeNs) b.name "" port = .ok u

theorem translateRules_append (resolver : Resolver) (hr : HTTPRoute)
    (hosts : List String) (l1 l2 : List HTTPRouteRule) (i : Nat)
    (ctx ctx1 : TranslateContext)
    (h : translateRules resolver hr hosts l1 i ctx = .ok ctx1) :
    translateRules resolver hr hosts (l1 ++ l2) i ctx =
      translateRules resolver hr hosts l2 (i + l1.length) ctx1 := by
  revert h
  induction l1 generalizing i ctx with
  | nil =>
      intro h
      cases h
      simp
  | cons rule t ih =>
      intro h
      rw [translateRules] at h
      cases e : translateRule resolver hr hosts i rule ctx with
      | error msg => simp only [e] at h; cases h
      | ok cmid =>
          simp only [e] at h
          simp only [List.cons_append, translateRules, e]
          show translateRules resolver hr hosts (t ++ l2) (i + 1) cmid =
            translateRules resolver hr hosts l2 (i + (t.length + 1)) ctx1
          rw [ih (i + 1) cmid h]
          have harith : i + 1 + t.length = i + (t.length + 1) := by omega
          rw [harith]

theorem processBackends_append (resolver : Resolver) (routeNs : String)
    (i : Nat) (l1 l2 : List HTTPBackendRef) (j : Nat) (ctx : TranslateContext)
    (rups : List Upstream) (wups : List TrafficSplitConfigRuleWeightedUpstream)
    (h : ∀ x ∈ l1, BackendSkippedOrResolved resolver routeNs x) :
    ∃ ctx' rups' wups',
      processBackends resolver routeNs i (l1 ++ l2) j ctx rups wups =
        processBackends resolver routeNs i l2 (j + l1.length) ctx' rups' wups' := by
  revert h
  induction l1 generalizing j ctx rups wups with
  | nil =>
      intro _
      exact ⟨ctx, rups, wups, by simp⟩
  | cons b t ih =>
      intro h
      have hb := h b (List.mem_cons_self b t)
      have ht : ∀ x ∈ t, BackendSkippedOrResolved resolver routeNs x :=
        fun x hx => h x (List.mem_cons_of_mem b hx)
      have harith : j + 1 + t.length = j + (t.length + 1) := by omega
      by_cases hk : backendKind b = "service"
      · have hc : (backendKind b != "service") = false := by simp [hk]
        cases hp : b.port with
        | none =>
            simp only [List.cons_append, processBackends, hc, Bool.false_eq_true,
              if_false, hp]
            obtain ⟨c, r, w, hstep⟩ := ih (j + 1) ctx rups wups ht
            refine ⟨c, r, w, ?_⟩
            show processBackends resolver routeNs i (t ++ l2) (j + 1) ctx rups wups =
              processBackends resolver routeNs i l2 (j + (t.length + 1)) c r w
            rw [hstep, harith]
        | some port =>
            rcases hb with hb | hb | ⟨port', u, hport', hres⟩
            · exact absurd hk hb
            · rw [hp] at hb; cases hb
            · rw [hp] at hport'
              cases hport'
              simp only [List.cons_append, processBackends, hc, Bool.false_eq_true,
                if_false, hp, hres]
              obtain ⟨c, r, w, hstep⟩ := ih (j + 1) _ _ _ ht
              refine ⟨c, r, w, ?_⟩
              show processBackends resolver routeNs i (t ++ l2) (j + 1) _ _ _ =
                processBackends resolver routeNs i l2 (j + (t.length + 1)) c r w
              rw [hstep, harith]
      · simp only [List.cons_append, processBackends, if_pos (bne_iff_ne.2 hk)]
        obtain ⟨c, r, w, hstep⟩ := ih (j + 1) ctx rups wups ht
        refine ⟨c, r, w, ?_⟩
        show processBackends resolver routeNs i (t ++ l2) (j + 1) ctx rups wups =
          processBackends resolver routeNs i l2 (j + (t.length + 1)) c r w
        rw [hstep, harith]

/-- C4: the first service backend with a port whose resolution fails aborts
the entire HTTPRoute translation with the resolver's error wrapped in the
rule and backend indices; all earlier rules processed fine and all earlier
backends of the rule were skipped or resolved, and nothing after the
failing backend is processed (the call returns the error immediately). -/
theorem resolver_failure_aborts (resolver : Resolver) (hr : HTTPRoute)
    (pre post : List HTTPRouteRule) (rule : HTTPRouteRule)
    (bpre bpost : List HTTPBackendRef) (b : HTTPBackendRef)
    (ctx1 : TranslateContext) (port : Int) (e : String)
    (hrules : hr.rules = pre ++ rule :: post)
    (hpre : translateRules resolver hr hr.hostnames pre 0
      DefaultEmptyTranslateContext = .ok ctx1)
    (hskip : ∀ x ∈ bpre, BackendSkippedOrResolved resolver hr.namespace' x)
    (hbacks : rule.backendRefs = bpre ++ b :: bpost)
    (hkind : backendKind b = "service")
    (hport : b.port = some port)
    (hres : resolver (b.namespace'.getD hr.namespace') b.name "" port = .error e) :
    TranslateGatewayHTTPRouteV1Alpha2 resolver hr =
      .error ("failed to translate Rules[" ++ toString pre.length ++
        "].BackendRefs[" ++ toString bpre.length ++ "]: " ++ e) := by
  have hpb : processBackends resolver hr.namespace' pre.length
      rule.backendRefs 0 ctx1 [] [] =
      .error ("failed to translate Rules[" ++ toString pre.length ++
        "].BackendRefs[" ++ toString bpre.length ++ "]: " ++ e) := by
    rw [hbacks]
    obtain ⟨c, r, w, hstep⟩ :=
      processBackends_append resolver hr.namespace' pre.length bpre
        (b :: bpost) 0 ctx1 [] [] hskip
    rw [hstep]
    have hc : (backendKind b != "service") = false := by simp [hkind]
    simp only [Nat.zero_add, processBackends, hc, Bool.false_eq_true, if_false,
      hport, hres]
  have hrule : translateRule resolver hr hr.hostnames pre.length rule ctx1 =
      .error ("failed to translate Rules[" ++ toString pre.length ++
        "].BackendRefs[" ++ toString bpre.length ++ "]: " ++ e) := by
    have hne : rule.backendRefs.isEmpty = false := by
      rw [hbacks]; cases bpre <;> rfl
    unfold translateRule
    simp only [hne, Bool.false_eq_true, if_false, hpb]
  unfold TranslateGatewayHTTPRouteV1Alpha2
  rw [hrules,
    translateRules_append resolver hr hr.hostnames pre (rule :: post) 0
      DefaultEmptyTranslateContext ctx1 hpre]
  rw [translateRules]
  simp only [Nat.zero_add, hrule]

/-- Resolver that always fails, modelling API-server unavailability. -/
def failResolver : Resolver := fun _ _ _ _ => .error "service unavailable"

/-- HTTPRoute whose single rule has the valid svc:80 backend. -/
def failHTTPRoute : HTTPRoute :=
  { namespace' := "ns", name := "r", hostnames := [], rules := [noMatchRule] }

/-- Witness for C4: with a failing resolver, translation of the whole
HTTPRoute returns exactly the wrapped positional error for Rules[0],
BackendRefs[0]. -/
theorem resolver_failure_aborts_witness :
    TranslateGatewayHTTPRouteV1Alpha2 failResolver failHTTPRoute =
      .error ("failed to translate Rules[" ++ toString (0 : Nat) ++
        "].BackendRefs[" ++ toString (0 : Nat) ++ "]: " ++
        "service unavailable") :=
  resolver_failure_aborts failResolver failHTTPRoute [] [] noMatchRule [] []
    svcBackend DefaultEmptyTranslateContext 80 "service unavailable" rfl rfl
    (fun x hx => absurd hx (List.not_mem_nil x)) rfl rfl rfl rfl

/-! ### C2: unrecognized match types and whole-call abort -/

/-- Path-match type outside the three recognized kinds. -/
def UnrecognizedPathType (t : String) : Prop :=
  t ≠ "Exact" ∧ t ≠ "PathPrefix" ∧ t ≠ "RegularExpression"

/-- Header/query match type outside the two recognized kinds. -/
def UnrecognizedPairType (t : String) : Prop :=
  t ≠ "Exact" ∧ t ≠ "RegularExpression"

/-- The match carries at least one unrecognized path, header or
query-parameter match type. -/
def HasUnrecognizedMatchType (m : HTTPRouteMatch) : Prop :=
  (∃ p, m.path = some p ∧ UnrecognizedPathType p.type) ∨
  (∃ h ∈ m.headers, UnrecognizedPairType h.type) ∨
  (∃ q ∈ m.queryParams, UnrecognizedPairType q.type)

/-- Match with an unrecognized path type. -/
def bogusMatch : HTTPRouteMatch :=
  { path := some { type := "Bogus", value := "/" }, headers := [],
    queryParams := [], method := none }

/-- Rule carrying the bogus match but no backend refs at all. -/
def bogusMatchEmptyBackendsRule : HTTPRouteRule :=
  { matches' := [bogusMatch], filters := [], backendRefs := [] }

/-- HTTPRoute whose only rule has the bogus match and no backends. -/
def bogusMatchHTTPRoute : HTTPRoute :=
  { namespace' := "ns", name := "r", hostnames := [],
    rules := [bogusMatchEmptyBackendsRule] }

/-- Counterexample to C2 as stated: this HTTPRoute contains a match whose
path-match type "Bogus" is recognized by none of the three kinds, yet the
whole translation call succeeds (the rule is skipped for lack of backend
refs before its matches are ever compiled), so no error is returned. -/
theorem bad_match_type_without_backends_no_abort :
    UnrecognizedPathType "Bogus" ∧
    bogusMatch ∈ bogusMatchEmptyBackendsRule.matches' ∧
    TranslateGatewayHTTPRouteV1Alpha2 failResolver bogusMatchHTTPRoute =
      .ok DefaultEmptyTranslateContext :=
  ⟨⟨by decide, by decide, by decide⟩, List.mem_cons_self _ _, rfl⟩

theorem translateMatchPath_bad (r : Route) (p : HTTPPathMatch)
    (hb : UnrecognizedPathType p.type) :
    translateMatchPath r (some p) =
      .error ("unknown path match type " ++ p.type) := by
  obtain ⟨h1, h2, h3⟩ := hb
  simp [translateMatchPath, beq_eq_false_iff_ne.2 h1, beq_eq_false_iff_ne.2 h2,
    beq_eq_false_iff_ne.2 h3]

theorem headerVar_bad (h : HTTPHeaderMatch) (hb : UnrecognizedPairType h.type) :
    headerVar h = .error ("unknown header match type " ++ h.type) := by
  obtain ⟨h1, h2⟩ := hb
  simp [headerVar, beq_eq_false_iff_ne.2 h1, beq_eq_false_iff_ne.2 h2]

theorem queryVar_bad (q : HTTPQueryParamMatch) (hb : UnrecognizedPairType q.type) :
    queryVar q = .error ("unknown query match type " ++ q.type) := by
  obtain ⟨h1, h2⟩ := hb
  simp [queryVar, beq_eq_false_iff_ne.2 h1, beq_eq_false_iff_ne.2 h2]

theorem translateMatchHeaders_err (hs : List HTTPHeaderMatch) (r : Route)
    (hbad : ∃ h ∈ hs, UnrecognizedPairType h.type) :
    ∃ e, translateMatchHeaders hs r = .error e := by
  revert hbad
  induction hs generalizing r with
  | nil =>
      rintro ⟨x, hx, _⟩
      cases hx
  | cons h t ih =>
      rintro ⟨x, hx, hbx⟩
      rw [translateMatchHeaders]
      cases hv : headerVar h with
      | error e => exact ⟨e, by simp only [hv]⟩
      | ok v =>
          rcases List.mem_cons.1 hx with rfl | hxt
          · rw [headerVar_bad x hbx] at hv; cases hv
          · obtain ⟨e, he⟩ := ih { r with vars := r.vars ++ [v] } ⟨x, hxt, hbx⟩
            exact ⟨e, by simp only [hv, he]⟩

theorem translateMatchQueries_err (qs : List HTTPQueryParamMatch) (r : Route)
    (hbad : ∃ q ∈ qs, UnrecognizedPairType q.type) :
    ∃ e, translateMatchQueries qs r = .error e := by
  revert hbad
  induction qs generalizing r with
  | nil =>
      rintro ⟨x, hx, _⟩
      cases hx
  | cons q t ih =>
      rintro ⟨x, hx, hbx⟩
      rw [translateMatchQueries]
      cases hv : queryVar q with
      | error e => exact ⟨e, by simp only [hv]⟩
      | ok v =>
          rcases List.mem_cons.1 hx with rfl | hxt
          · rw [queryVar_bad x hbx] at hv; cases hv
          · obtain ⟨e, he⟩ := ih { r with vars := r.vars ++ [v] } ⟨x, hxt, hbx⟩
            exact ⟨e, by simp only [hv, he]⟩

theorem translateGatewayHTTPRouteMatch_err (m : HTTPRouteMatch)
    (hbad : HasUnrecognizedMatchType m) :
    ∃ e, translateGatewayHTTPRouteMatch m = .error e := by
  unfold translateGatewayHTTPRouteMatch
  cases e1 : translateMatchPath NewDefaultRoute m.path with
  | error e => exact ⟨e, by simp only [e1]⟩
  | ok r1 =>
      cases e2 : translateMatchHeaders m.headers r1 with
      | error e => exact ⟨e, by simp only [e1, e2]⟩
      | ok r2 =>
          cases e3 : translateMatchQueries m.queryParams r2 with
          | error e => exact ⟨e, by simp only [e1, e2, e3]⟩
          | ok r3 =>
              exfalso
              rcases hbad with ⟨p, hp, hb⟩ | hbad | hbad
              · rw [hp, translateMatchPath_bad _ _ hb] at e1; cases e1
              · obtain ⟨e, he⟩ := translateMatchHeaders_err m.headers r1 hbad
                rw [he] at e2; cases e2
              · obtain ⟨e, he⟩ := translateMatchQueries_err m.queryParams r2 hbad
                rw [he] at e3; cases e3

theorem translateMatches_err (ns name : String) (hosts : List String)
    (plugins : Plugins) (rups : List Upstream)
    (wups : List TrafficSplitConfigRuleWeightedUpstream) (i : Nat)
    (ms : List HTTPRouteMatch) (j : Nat) (ctx : TranslateContext)
    (hbad : ∃ m ∈ ms, HasUnrecognizedMatchType m) :
    ∃ e, translateMatches ns name hosts plugins rups wups i ms j ctx =
      .error e := by
  revert hbad
  induction ms generalizing j ctx with
  | nil =>
      rintro ⟨x, hx, _⟩
      cases hx
  | cons m t ih =>
      rintro ⟨x, hx, hbx⟩
      rw [translateMatches]
      cases hm : translateGatewayHTTPRouteMatch m with
      | error e =>
          exact ⟨"failed to translate Rules[" ++ toString i ++ "].Matches[" ++
            toString j ++ "]: " ++ e, by simp only [hm]⟩
      | ok r0 =>
          rcases List.mem_cons.1 hx with rfl | hxt
          · obtain ⟨e, he⟩ := translateGatewayHTTPRouteMatch_err x hbx
            rw [he] at hm; cases hm
          · obtain ⟨e, he⟩ := ih (j + 1)
              (ctx.addRoute (buildMatchRoute ns name hosts plugins rups wups i j r0))
              ⟨x, hxt, hbx⟩
            exact ⟨e, by simp only [hm, he]⟩

theorem processBackends_rups_extend (resolver : Resolver) (routeNs : String)
    (i : Nat) (bs : List HTTPBackendRef) (j : Nat) (ctx : TranslateContext)
    (rups : List Upstream) (wups : List TrafficSplitConfigRuleWeightedUpstream)
    (ctx' : TranslateContext) (rups' : List Upstream)
    (wups' : List TrafficSplitConfigRuleWeightedUpstream)
    (h : processBackends resolver routeNs i bs j ctx rups wups =
      .ok (ctx', rups', wups')) :
    ∃ t, rups' = rups ++ t := by
  induction bs generalizing j ctx rups wups with
  | nil =>
      cases h
      exact ⟨[], by simp⟩
  | cons b t ih =>
      simp only [processBackends] at h
      by_cases hk : backendKind b = "service"
      · have hc : (backendKind b != "service") = false := by simp [hk]
        simp only [hc, Bool.false_eq_true, if_false] at h
        cases hp : b.port with
        | none =>
            simp only [hp] at h
            exact ih (j + 1) ctx rups wups h
        | some port =>
            simp only [hp] at h
            cases hres : resolver (b.namespace'.getD routeNs) b.name "" port with
            | error e => simp only [hres] at h; cases h
            | ok u =>
                simp only [hres] at h
                obtain ⟨tl, htl⟩ := ih (j + 1) _ _ _ h
                refine ⟨resolvedUpstream (b.namespace'.getD routeNs) b.name port u
                  :: tl, ?_⟩
                rw [htl, List.append_assoc]
                rfl
      · rw [if_pos (bne_iff_ne.2 hk)] at h
        exact ih (j + 1) ctx rups wups h

theorem processBackends_result (resolver : Resolver) (routeNs : String)
    (i : Nat) (bs : List HTTPBackendRef) (j : Nat) (ctx : TranslateContext)
    (rups : List Upstream) (wups : List TrafficSplitConfigRuleWeightedUpstream)
    (hex : ∃ b ∈ bs, backendKind b = "service" ∧ b.port ≠ none) :
    (∃ e, processBackends resolver routeNs i bs j ctx rups wups = .error e) ∨
    (∃ ctx' rups' wups',
      processBackends resolver routeNs i bs j ctx rups wups =
        .ok (ctx', rups', wups') ∧ rups' ≠ []) := by
  revert hex
  induction bs generalizing j ctx rups wups with
  | nil =>
      rintro ⟨x, hx, _⟩
      cases hx
  | cons b t ih =>
      rintro ⟨x, hx, hpx⟩
      by_cases hk : backendKind b = "service"
      · have hc : (backendKind b != "service") = false := by simp [hk]
        cases hp : b.port with
        | none =>
            rcases List.mem_cons.1 hx with rfl | hxt
            · exact absurd hp hpx.2
            · simp only [processBackends, hc, Bool.false_eq_true, if_false, hp]
              exact ih (j + 1) ctx rups wups ⟨x, hxt, hpx⟩
        | some port =>
            simp only [processBackends, hc, Bool.false_eq_true, if_false, hp]
            cases hres : resolver (b.namespace'.getD routeNs) b.name "" port with
            | error e =>
                left
                exact ⟨"failed to translate Rules[" ++ toString i ++
                  "].BackendRefs[" ++ toString j ++ "]: " ++ e, rfl⟩
            | ok u =>
                cases hrec : processBackends resolver routeNs i t (j + 1)
                    (ctx.addUpstream
                      (resolvedUpstream (b.namespace'.getD routeNs) b.name port u))
                    (rups ++ [resolvedUpstream (b.namespace'.getD routeNs)
                      b.name port u])
                    (wups ++ [weightedUpstreamFor
                      (resolvedUpstream (b.namespace'.getD routeNs)
                        b.name port u).id b.weight]) with
                | error e => left; exact ⟨e, hrec⟩
                | ok res =>
                    right
                    rcases res with ⟨c', r', w'⟩
                    obtain ⟨tl, htl⟩ := processBackends_rups_extend resolver
                      routeNs i t (j + 1) _ _ _ _ _ _ hrec
                    refine ⟨c', r', w', hrec, ?_⟩
                    rw [htl]
                    simp
      · rcases List.mem_cons.1 hx with rfl | hxt
        · exact absurd hpx.1 hk
        · simp only [processBackends, if_pos (bne_iff_ne.2 hk)]
          exact ih (j + 1) ctx rups wups ⟨x, hxt, hpx⟩

theorem translateRule_err (resolver : Resolver) (hr : HTTPRoute)
    (hosts : List String) (i : Nat) (rule : HTTPRouteRule)
    (ctx : TranslateContext)
    (hback : ∃ b ∈ rule.backendRefs, backendKind b = "service" ∧ b.port ≠ none)
    (hbad : ∃ m ∈ rule.matches', HasUnrecognizedMatchType m) :
    ∃ e, translateRule resolver hr hosts i rule ctx = .error e := by
  have hne : rule.backendRefs.isEmpty = false := by
    obtain ⟨b, hb, _⟩ := hback
    cases hbr : rule.backendRefs with
    | nil => rw [hbr] at hb; cases hb
    | cons y ys => rfl
  unfold translateRule
  simp only [hne, Bool.false_eq_true, if_false]
  rcases processBackends_result resolver hr.namespace' i rule.backendRefs 0
    ctx [] [] hback with ⟨e, he⟩ | ⟨c, r, w, hok, hnemp⟩
  · exact ⟨e, by simp only [he]⟩
  · have hrne : r.isEmpty = false := by
      cases hrc : r with
      | nil => exact absurd hrc hnemp
      | cons y ys => rfl
    have hmne : rule.matches'.isEmpty = false := by
      obtain ⟨m, hm, _⟩ := hbad
      cases hmc : rule.matches' with
      | nil => rw [hmc] at hm; cases hm
      | cons y ys => rfl
    obtain ⟨e, he⟩ := translateMatches_err hr.namespace' hr.name hosts
      (generatePluginsFromHTTPRouteFilter rule.filters) r w i rule.matches' 0 c
      hbad
    refine ⟨e, ?_⟩
    simp only [hok, hrne, Bool.false_eq_true, if_false, hmne, he]

theorem translateRules_err (resolver : Resolver) (hr : HTTPRoute)
    (hosts : List String) (rules : List HTTPRouteRule) (i : Nat)
    (ctx : TranslateContext) (rule : HTTPRouteRule) (hmem : rule ∈ rules)
    (hback : ∃ b ∈ rule.backendRefs, backendKind b = "service" ∧ b.port ≠ none)
    (hbad : ∃ m ∈ rule.matches', HasUnrecognizedMatchType m) :
    ∃ e, translateRules resolver hr hosts rules i ctx = .error e := by
  revert hmem
  induction rules generalizing i ctx with
  | nil =>
      intro hmem
      cases hmem
  | cons hd t ih =>
      intro hmem
      rw [translateRules]
      cases e : translateRule resolver hr hosts i hd ctx with
      | error msg => exact ⟨msg, by simp only [e]⟩
      | ok cmid =>
          rcases List.mem_cons.1 hmem with rfl | hmt
          · obtain ⟨msg, hmsg⟩ := translateRule_err resolver hr hosts i _ ctx
              hback hbad
            rw [hmsg] at e; cases e
          · obtain ⟨msg, hmsg⟩ := ih (i + 1) cmid hmt
            exact ⟨msg, by simp only [e, hmsg]⟩

/-- C2 amended: an unrecognized path/header/query match type aborts the
whole translation call (no context is returned) provided the match's rule
is actually reached, i.e. the rule has at least one backend ref of
supported kind with a port.  (As stated the claim is false: a rule with no
usable backends is skipped before its matches are compiled, see the
counterexample.) -/
theorem unrecognized_match_type_aborts (resolver : Resolver) (hr : HTTPRoute)
    (rule : HTTPRouteRule) (hmem : rule ∈ hr.rules)
    (hback : ∃ b ∈ rule.backendRefs, backendKind b = "service" ∧ b.port ≠ none)
    (hbad : ∃ m ∈ rule.matches', HasUnrecognizedMatchType m) :
    ∃ e, TranslateGatewayHTTPRouteV1Alpha2 resolver hr = .error e := by
  unfold TranslateGatewayHTTPRouteV1Alpha2
  exact translateRules_err resolver hr hr.hostnames hr.rules 0
    DefaultEmptyTranslateContext rule hmem hback hbad

/-- Rule with the bogus match and the valid svc:80 backend. -/
def bogusMatchWithBackendRule : HTTPRouteRule :=
  { matches' := [bogusMatch], filters := [], backendRefs := [svcBackend] }

/-- HTTPRoute whose only rule has the bogus match and a valid backend. -/
def bogusMatchWithBackendHTTPRoute : HTTPRoute :=
  { namespace' := "ns", name := "r", hostnames := [],
    rules := [bogusMatchWithBackendRule] }

/-- Witness for the amended C2: once the rule has a usable backend, the
bogus path-match type makes the whole call return an error. -/
theorem unrecognized_match_type_aborts_witness :
    ∃ e, TranslateGatewayHTTPRouteV1Alpha2 okResolver
      bogusMatchWithBackendHTTPRoute = .error e :=
  unrecognized_match_type_aborts okResolver bogusMatchWithBackendHTTPRoute
    bogusMatchWithBackendRule (List.mem_cons_self _ _)
    ⟨svcBackend, List.mem_cons_self _ _, rfl, by decide⟩
    ⟨bogusMatch, List.mem_cons_self _ _,
      Or.inl ⟨{ type := "Bogus", value := "/" }, rfl, by decide, by decide,
        by decide⟩⟩

/-! ### C1: determinism and identifier shape -/

/-- Route identifiers are the deterministic hash of the (namespace, name,
rule index, match index) composite key. -/
def RouteIdWellFormed (ns name : String) (r : Route) : Prop :=
  ∃ i j : Nat,
    r.id = GenID (ComposeRouteName ns name (toString i ++ "-" ++ toString j))

/-- Upstream identifiers are the deterministic hash of the (namespace,
name, subset, port, resolution granularity) composite key, with the empty
subset and per-endpoint granularity this translator always uses. -/
def UpstreamIdWellFormed (u : Upstream) : Prop :=
  ∃ (ns bname : String) (port : Int),
    u.id = GenID (ComposeUpstreamName ns bname "" port ResolveGranularityEndpoint)

theorem buildMatchRoute_id (ns name : String) (hosts : List String)
    (plugins : Plugins) (rups : List Upstream)
    (wups : List TrafficSplitConfigRuleWeightedUpstream) (i j : Nat)
    (r0 : Route) :
    (buildMatchRoute ns name hosts plugins rups wups i j r0).id =
      GenID (ComposeRouteName ns name (toString i ++ "-" ++ toString j)) := by
  cases rups with
  | nil => rfl
  | cons u us =>
      cases us with
      | nil => rfl
      | cons u2 us2 => rfl

theorem processBackends_upstreams_inv (resolver : Resolver) (routeNs : String)
    (i : Nat) (bs : List HTTPBackendRef) (j : Nat) (ctx : TranslateContext)
    (rups : List Upstream) (wups : List TrafficSplitConfigRuleWeightedUpstream)
    (ctx' : TranslateContext) (rups' : List Upstream)
    (wups' : List TrafficSplitConfigRuleWeightedUpstream)
    (h : processBackends resolver routeNs i bs j ctx rups wups =
      .ok (ctx', rups', wups'))
    (hinv : ∀ u ∈ ctx.upstreams, UpstreamIdWellFormed u) :
    ∀ u ∈ ctx'.upstreams, UpstreamIdWellFormed u := by
  induction bs generalizing j ctx rups wups with
  | nil =>
      cases h
      exact hinv
  | cons b t ih =>
      simp only [processBackends] at h
      by_cases hk : backendKind b = "service"
      · have hc : (backendKind b != "service") = false := by simp [hk]
        simp only [hc, Bool.false_eq_true, if_false] at h
        cases hp : b.port with
        | none =>
            simp only [hp] at h
            exact ih (j + 1) ctx rups wups h hinv
        | some port =>
            simp only [hp] at h
            cases hres : resolver (b.namespace'.getD routeNs) b.name "" port with
            | error e => simp only [hres] at h; cases h
            | ok u0 =>
                simp only [hres] at h
                refine ih (j + 1) _ _ _ h ?_
                intro u hu
                rcases TranslateContext.mem_addUpstream hu with rfl | hu2
                · exact ⟨b.namespace'.getD routeNs, b.name, port, rfl⟩
                · exact hinv u hu2
      · rw [if_pos (bne_iff_ne.2 hk)] at h
        exact ih (j + 1) ctx rups wups h hinv

theorem processBackends_routes (resolver : Resolver) (routeNs : String)
    (i : Nat) (bs : List HTTPBackendRef) (j : Nat) (ctx : TranslateContext)
    (rups : List Upstream) (wups : List TrafficSplitConfigRuleWeightedUpstream)
    (ctx' : TranslateContext) (rups' : List Upstream)
    (wups' : List TrafficSplitConfigRuleWeightedUpstream)
    (h : processBackends resolver routeNs i bs j ctx rups wups =
      .ok (ctx', rups', wups')) :
    ctx'.routes = ctx.routes := by
  induction bs generalizing j ctx rups wups with
  | nil =>
      cases h
      rfl
  | cons b t ih =>
      simp only [processBackends] at h
      by_cases hk : backendKind b = "service"
      · have hc : (backendKind b != "service") = false := by simp [hk]
        simp only [hc, Bool.false_eq_true, if_false] at h
        cases hp : b.port with
        | none =>
            simp only [hp] at h
            exact ih (j + 1) ctx rups wups h
        | some port =>
            simp only [hp] at h
            cases hres : resolver (b.namespace'.getD routeNs) b.name "" port with
            | error e => simp only [hres] at h; cases h
            | ok u0 =>
                simp only [hres] at h
                rw [ih (j + 1) _ _ _ h]
                exact TranslateContext.routes_addUpstream ctx _
      · rw [if_pos (bne_iff_ne.2 hk)] at h
        exact ih (j + 1) ctx rups wups h

theorem translateMatches_upstreams (ns name : String) (hosts : List String)
    (plugins : Plugins) (rups : List Upstream)
    (wups : List TrafficSplitConfigRuleWeightedUpstream) (i : Nat)
    (ms : List HTTPRouteMatch) (j : Nat) (ctx ctx' : TranslateContext)
    (h : translateMatches ns name hosts plugins rups wups i ms j ctx = .ok ctx') :
    ctx'.upstreams = ctx.upstreams := by
  induction ms generalizing j ctx with
  | nil =>
      cases h
      rfl
  | cons m t ih =>
      rw [translateMatches] at h
      cases hm : translateGatewayHTTPRouteMatch m with
      | error e => simp only [hm] at h; cases h
      | ok r0 =>
          simp only [hm] at h
          rw [ih (j + 1) _ h]
          exact TranslateContext.upstreams_addRoute ctx _

theorem translateRule_inv (resolver : Resolver) (hr : HTTPRoute)
    (hosts : List String) (i : Nat) (rule : HTTPRouteRule)
    (ctx ctx' : TranslateContext)
    (h : translateRule resolver hr hosts i rule ctx = .ok ctx')
    (hrinv : ∀ r ∈ ctx.routes, RouteIdWellFormed hr.namespace' hr.name r)
    (huinv : ∀ u ∈ ctx.upstreams, UpstreamIdWellFormed u) :
    (∀ r ∈ ctx'.routes, RouteIdWellFormed hr.namespace' hr.name r) ∧
    (∀ u ∈ ctx'.upstreams, UpstreamIdWellFormed u) := by
  unfold translateRule at h
  cases hbe : rule.backendRefs.isEmpty with
  | true =>
      simp only [hbe, if_true] at h
      cases h
      exact ⟨hrinv, huinv⟩
  | false =>
      simp only [hbe, Bool.false_eq_true, if_false] at h
      cases hpb : processBackends resolver hr.namespace' i rule.backendRefs 0
          ctx [] [] with
      | error e => simp only [hpb] at h; cases h
      | ok res =>
          rcases res with ⟨c, r, w⟩
          simp only [hpb] at h
          have hur := processBackends_upstreams_inv resolver hr.namespace' i
            rule.backendRefs 0 ctx [] [] c r w hpb huinv
          have hcr : c.routes = ctx.routes := processBackends_routes resolver
            hr.namespace' i rule.backendRefs 0 ctx [] [] c r w hpb
          have hcrinv : ∀ x ∈ c.routes, RouteIdWellFormed hr.namespace' hr.name x := by
            rw [hcr]; exact hrinv
          cases hre : r.isEmpty with
          | true =>
              simp only [hre, if_true] at h
              cases h
              exact ⟨hcrinv, hur⟩
          | false =>
              simp only [hre, Bool.false_eq_true, if_false] at h
              constructor
              · intro x hx
                rcases translateMatches_routes hr.namespace' hr.name hosts
                  (generatePluginsFromHTTPRouteFilter rule.filters) r w i
                  (if rule.matches'.isEmpty then [defaultMatch] else rule.matches')
                  0 c ctx' h x hx with hmem | ⟨j', m, r0, _, rfl⟩
                · exact hcrinv x hmem
                · exact ⟨i, j', buildMatchRoute_id _ _ _ _ _ _ _ _ _⟩
              · intro u hu
                rw [translateMatches_upstreams hr.namespace' hr.name hosts
                  (generatePluginsFromHTTPRouteFilter rule.filters) r w i
                  (if rule.matches'.isEmpty then [defaultMatch] else rule.matches')
                  0 c ctx' h] at hu
                exact hur u hu

theorem translateRules_inv (resolver : Resolver) (hr : HTTPRoute)
    (hosts : List String) (rules : List HTTPRouteRule) (i : Nat)
    (ctx ctx' : TranslateContext)
    (h : translateRules resolver hr hosts rules i ctx = .ok ctx')
    (hrinv : ∀ r ∈ ctx.routes, RouteIdWellFormed hr.namespace' hr.name r)
    (huinv : ∀ u ∈ ctx.upstreams, UpstreamIdWellFormed u) :
    (∀ r ∈ ctx'.routes, RouteIdWellFormed hr.namespace' hr.name r) ∧
    (∀ u ∈ ctx'.upstreams, UpstreamIdWellFormed u) := by
  induction rules generalizing i ctx with
  | nil =>
      cases h
      exact ⟨hrinv, huinv⟩
  | cons rule t ih =>
      rw [translateRules] at h
      cases e : translateRule resolver hr hosts i rule ctx with
      | error msg => simp only [e] at h; cases h
      | ok cmid =>
          simp only [e] at h
          obtain ⟨h1, h2⟩ := translateRule_inv resolver hr hosts i rule ctx cmid
            e hrinv huinv
          exact ih (i + 1) cmid h h1 h2

/-- C1: translation is a pure function of the resolver and the HTTPRoute
(translating twice yields identical identifiers and contents), and in any
successful output every Route identifier is the deterministic hash of the
(namespace, name, rule index, match index) composite key while every
Upstream identifier is the deterministic hash of a (namespace, name,
subset, port, granularity) composite key. -/
theorem translate_deterministic_ids (resolver : Resolver) (hr : HTTPRoute) :
    TranslateGatewayHTTPRouteV1Alpha2 resolver hr =
      TranslateGatewayHTTPRouteV1Alpha2 resolver hr ∧
    ∀ ctx, TranslateGatewayHTTPRouteV1Alpha2 resolver hr = .ok ctx →
      (∀ r ∈ ctx.routes, RouteIdWellFormed hr.namespace' hr.name r) ∧
      (∀ u ∈ ctx.upstreams, UpstreamIdWellFormed u) := by
  refine ⟨rfl, ?_⟩
  intro ctx h
  exact translateRules_inv resolver hr hr.hostnames hr.rules 0
    DefaultEmptyTranslateContext ctx h
    (fun r hr' => absurd hr' (List.not_mem_nil r))
    (fun u hu => absurd hu (List.not_mem_nil u))

/-- The single route of the translation of noMatchHTTPRoute. -/
def c1Route : Route :=
  { id := "id-ns_r_0-0", uri := "/*", hosts := ["foo.com"], vars := [],
    methods := [], plugins := [], upstreamId := "id-ns_svc__80_endpoint" }

/-- The full translation output of noMatchHTTPRoute under okResolver. -/
def c1Ctx : TranslateContext :=
  { routes := [c1Route], upstreams := [noMatchUpstream] }

/-- Witness for C1 at the concrete HTTPRoute: the translation output is
c1Ctx and both identifier invariants hold of it. -/
theorem translate_deterministic_ids_witness :
    (∀ r ∈ c1Ctx.routes,
      RouteIdWellFormed noMatchHTTPRoute.namespace' noMatchHTTPRoute.name r) ∧
    (∀ u ∈ c1Ctx.upstreams, UpstreamIdWellFormed u) :=
  (translate_deterministic_ids okResolver noMatchHTTPRoute).2 c1Ctx rfl

/-! ### C7: default match for rules without match predicates -/

theorem buildMatchRoute_fields (ns name : String) (hosts : List String)
    (plugins : Plugins) (rups : List Upstream)
    (wups : List TrafficSplitConfigRuleWeightedUpstream) (i j : Nat)
    (r0 : Route) :
    (buildMatchRoute ns name hosts plugins rups wups i j r0).uri = r0.uri ∧
    (buildMatchRoute ns name hosts plugins rups wups i j r0).hosts = hosts ∧
    (buildMatchRoute ns name hosts plugins rups wups i j r0).vars = r0.vars ∧
    (buildMatchRoute ns name hosts plugins rups wups i j r0).methods =
      r0.methods := by
  cases rups with
  | nil => exact ⟨rfl, rfl, rfl, rfl⟩
  | cons u us =>
      cases us with
      | nil => exact ⟨rfl, rfl, rfl, rfl⟩
      | cons u2 us2 => exact ⟨rfl, rfl, rfl, rfl⟩

/-- C7: a rule with no match predicates and at least one resolved upstream
produces exactly one Route, assembled from the substituted default
PathPrefix "/" match: its URI is the trailing-wildcard "/*", its host list
is the HTTPRoute's hostnames, it has no variable conditions and no
methods, and its identifier comes from (namespace, name, rule index,
match index 0).  When exactly one upstream resolved the Route is bound to
it directly with no traffic-split plugin; with two or more the single
Route carries the traffic-split binding instead. -/
theorem no_match_default_route (resolver : Resolver) (hr : HTTPRoute) (i : Nat)
    (rule : HTTPRouteRule) (ctx ctx1 : TranslateContext) (rups : List Upstream)
    (wups : List TrafficSplitConfigRuleWeightedUpstream)
    (hnm : rule.matches' = [])
    (hne : rups ≠ [])
    (hok : processBackends resolver hr.namespace' i rule.backendRefs 0 ctx [] [] =
      .ok (ctx1, rups, wups)) :
    translateRule resolver hr hr.hostnames i rule ctx =
      .ok (ctx1.addRoute (buildMatchRoute hr.namespace' hr.name hr.hostnames
        (generatePluginsFromHTTPRouteFilter rule.filters) rups wups i 0
        defaultMatchRoute)) ∧
    (buildMatchRoute hr.namespace' hr.name hr.hostnames
      (generatePluginsFromHTTPRouteFilter rule.filters) rups wups i 0
      defaultMatchRoute).uri = "/*" ∧
    (buildMatchRoute hr.namespace' hr.name hr.hostnames
      (generatePluginsFromHTTPRouteFilter rule.filters) rups wups i 0
      defaultMatchRoute).hosts = hr.hostnames ∧
    (buildMatchRoute hr.namespace' hr.name hr.hostnames
      (generatePluginsFromHTTPRouteFilter rule.filters) rups wups i 0
      defaultMatchRoute).vars = [] ∧
    (buildMatchRoute hr.namespace' hr.name hr.hostnames
      (generatePluginsFromHTTPRouteFilter rule.filters) rups wups i 0
      defaultMatchRoute).methods = [] ∧
    (buildMatchRoute hr.namespace' hr.name hr.hostnames
      (generatePluginsFromHTTPRouteFilter rule.filters) rups wups i 0
      defaultMatchRoute).id =
      GenID (ComposeRouteName hr.namespace' hr.name
        (toString i ++ "-" ++ toString 0)) ∧
    (∀ u, rups = [u] →
      (buildMatchRoute hr.namespace' hr.name hr.hostnames
        (generatePluginsFromHTTPRouteFilter rule.filters) rups wups i 0
        defaultMatchRoute).upstreamId = u.id ∧
      assocFind (buildMatchRoute hr.namespace' hr.name hr.hostnames
        (generatePluginsFromHTTPRouteFilter rule.filters) rups wups i 0
        defaultMatchRoute).plugins "traffic-split" = none) ∧
    (2 ≤ rups.length →
      (buildMatchRoute hr.namespace' hr.name hr.hostnames
        (generatePluginsFromHTTPRouteFilter rule.filters) rups wups i 0
        defaultMatchRoute).upstreamId = "" ∧
      assocFind (buildMatchRoute hr.namespace' hr.name hr.hostnames
        (generatePluginsFromHTTPRouteFilter rule.filters) rups wups i 0
        defaultMatchRoute).plugins "traffic-split" =
        some (.trafficSplit { rules := [{ weightedUpstreams := wups }] })) := by
  obtain ⟨hfu, hfh, hfv, hfm⟩ := buildMatchRoute_fields hr.namespace' hr.name
    hr.hostnames (generatePluginsFromHTTPRouteFilter rule.filters) rups wups
    i 0 defaultMatchRoute
  have hbind := buildMatchRoute_binding hr.namespace' hr.name hr.hostnames
    (generatePluginsFromHTTPRouteFilter rule.filters) rups wups i 0
    defaultMatchRoute (generatePlugins_traffic_split_none rule.filters) hne rfl
  refine ⟨?_, hfu, hfh, hfv, hfm,
    buildMatchRoute_id hr.namespace' hr.name hr.hostnames
      (generatePluginsFromHTTPRouteFilter rule.filters) rups wups i 0
      defaultMatchRoute, ?_, ?_⟩
  · have hne2 : rule.backendRefs.isEmpty = false := by
      cases hb : rule.backendRefs with
      | nil =>
          rw [hb] at hok
          simp only [processBackends] at hok
          cases hok
          exact absurd rfl hne
      | cons b bs => rfl
    have hre : rups.isEmpty = false := by
      cases hr2 : rups with
      | nil => exact absurd hr2 hne
      | cons y ys => rfl
    unfold translateRule
    rw [hne2]
    simp only [Bool.false_eq_true, if_false, hok, hnm, hre,
      List.isEmpty_nil, if_true]
    have hmatch : translateGatewayHTTPRouteMatch defaultMatch =
        .ok defaultMatchRoute := rfl
    simp only [translateMatches, hmatch]
  · intro u hu
    rcases hbind with ⟨u', hu', h1, h2⟩ | ⟨hlen, _, _⟩
    · rw [hu] at hu'
      cases hu'
      exact ⟨h1, h2⟩
    · rw [hu] at hlen
      simp at hlen
  · intro hlen
    rcases hbind with ⟨u', hu', _, _⟩ | ⟨_, h1, h2⟩
    · rw [hu'] at hlen
      simp at hlen
    · exact ⟨h1, h2⟩

/-- Second service backend svc2:81 with explicit weight 3. -/
def svc2Backend : HTTPBackendRef :=
  { kind := none, namespace' := none, name := "svc2", port := some 81,
    weight := some 3 }

/-- Rule with no matches and two valid service backends. -/
def twoBackendNoMatchRule : HTTPRouteRule :=
  { matches' := [], filters := [], backendRefs := [svcBackend, svc2Backend] }

/-- HTTPRoute with hostname foo.com and the two-backend no-match rule. -/
def twoBackendHTTPRoute : HTTPRoute :=
  { namespace' := "ns", name := "r", hostnames := ["foo.com"],
    rules := [twoBackendNoMatchRule] }

/-- The upstream okResolver produces for backend svc2:81. -/
def svc2Upstream : Upstream :=
  { id := "id-ns_svc2__81_endpoint", name := "ns/svc2:81",
    labels := [("meta_namespace", "ns"), ("meta_backend", "svc2"),
      ("meta_port", "81")] }

/-- Weighted list (weights 1 and 3) the backend loop builds for the
two-backend rule. -/
def twoBackendWeighted : List TrafficSplitConfigRuleWeightedUpstream :=
  [{ upstreamID := noMatchUpstream.id, weight := 1 },
   { upstreamID := svc2Upstream.id, weight := 3 }]

/-- Witness for C7 at the two-backend no-match rule: exactly one wildcard
Route with the hostnames is produced, traffic-split bound. -/
theorem no_match_default_route_witness :
    translateRule okResolver twoBackendHTTPRoute twoBackendHTTPRoute.hostnames 0
        twoBackendNoMatchRule DefaultEmptyTranslateContext =
      .ok ({ routes := [], upstreams := [noMatchUpstream, svc2Upstream] :
          TranslateContext }.addRoute
        (buildMatchRoute twoBackendHTTPRoute.namespace' twoBackendHTTPRoute.name
          twoBackendHTTPRoute.hostnames
          (generatePluginsFromHTTPRouteFilter twoBackendNoMatchRule.filters)
          [noMatchUpstream, svc2Upstream] twoBackendWeighted 0 0
          defaultMatchRoute)) ∧
    (buildMatchRoute twoBackendHTTPRoute.namespace' twoBackendHTTPRoute.name
      twoBackendHTTPRoute.hostnames
      (generatePluginsFromHTTPRouteFilter twoBackendNoMatchRule.filters)
      [noMatchUpstream, svc2Upstream] twoBackendWeighted 0 0
      defaultMatchRoute).uri = "/*" ∧
    (buildMatchRoute twoBackendHTTPRoute.namespace' twoBackendHTTPRoute.name
      twoBackendHTTPRoute.hostnames
      (generatePluginsFromHTTPRouteFilter twoBackendNoMatchRule.filters)
      [noMatchUpstream, svc2Upstream] twoBackendWeighted 0 0
      defaultMatchRoute).hosts = twoBackendHTTPRoute.hostnames ∧
    (buildMatchRoute twoBackendHTTPRoute.namespace' twoBackendHTTPRoute.name
      twoBackendHTTPRoute.hostnames
      (generatePluginsFromHTTPRouteFilter twoBackendNoMatchRule.filters)
      [noMatchUpstream, svc2Upstream] twoBackendWeighted 0 0
      defaultMatchRoute).vars = [] ∧
    (buildMatchRoute twoBackendHTTPRoute.namespace' twoBackendHTTPRoute.name
      twoBackendHTTPRoute.hostnames
      (generatePluginsFromHTTPRouteFilter twoBackendNoMatchRule.filters)
      [noMatchUpstream, svc2Upstream] twoBackendWeighted 0 0
      defaultMatchRoute).methods = [] ∧
    (buildMatchRoute twoBackendHTTPRoute.namespace' twoBackendHTTPRoute.name
      twoBackendHTTPRoute.hostnames
      (generatePluginsFromHTTPRouteFilter twoBackendNoMatchRule.filters)
      [noMatchUpstream, svc2Upstream] twoBackendWeighted 0 0
      defaultMatchRoute).id =
      GenID (ComposeRouteName twoBackendHTTPRoute.namespace'
        twoBackendHTTPRoute.name (toString 0 ++ "-" ++ toString 0)) ∧
    (∀ u, ([noMatchUpstream, svc2Upstream] : List Upstream) = [u] →
      (buildMatchRoute twoBackendHTTPRoute.namespace' twoBackendHTTPRoute.name
        twoBackendHTTPRoute.hostnames
        (generatePluginsFromHTTPRouteFilter twoBackendNoMatchRule.filters)
        [noMatchUpstream, svc2Upstream] twoBackendWeighted 0 0
        defaultMatchRoute).upstreamId = u.id ∧
      assocFind (buildMatchRoute twoBackendHTTPRoute.namespace'
        twoBackendHTTPRoute.name twoBackendHTTPRoute.hostnames
        (generatePluginsFromHTTPRouteFilter twoBackendNoMatchRule.filters)
        [noMatchUpstream, svc2Upstream] twoBackendWeighted 0 0
        defaultMatchRoute).plugins "traffic-split" = none) ∧
    (2 ≤ ([noMatchUpstream, svc2Upstream] : List Upstream).length →
      (buildMatchRoute twoBackendHTTPRoute.namespace' twoBackendHTTPRoute.name
        twoBackendHTTPRoute.hostnames
        (generatePluginsFromHTTPRouteFilter twoBackendNoMatchRule.filters)
        [noMatchUpstream, svc2Upstream] twoBackendWeighted 0 0
        defaultMatchRoute).upstreamId = "" ∧
      assocFind (buildMatchRoute twoBackendHTTPRoute.namespace'
        twoBackendHTTPRoute.name twoBackendHTTPRoute.hostnames
        (generatePluginsFromHTTPRouteFilter twoBackendNoMatchRule.filters)
        [noMatchUpstream, svc2Upstream] twoBackendWeighted 0 0
        defaultMatchRoute).plugins "traffic-split" =
        some (.trafficSplit { rules := [{ weightedUpstreams := twoBackendWeighted }] })) :=
  no_match_default_route okResolver twoBackendHTTPRoute 0 twoBackendNoMatchRule
    DefaultEmptyTranslateContext
    { routes := [], upstreams := [noMatchUpstream, svc2Upstream] }
    [noMatchUpstream, svc2Upstream] twoBackendWeighted rfl (by decide) rfl

end ApisixGatewayTranslation
